import Mathlib

/-! OCI auth plugin: configuration and role stores

A shallow embedding of `path_config.go`, `path_role.go` and
`authentication_client.go`, with the login decision procedure of the
specification on top of the two stores.

Modelling conventions.

* Go strings are modelled as Lean strings (Unicode text).
* A handler of type `(ctx, req, data) -> (*logical.Response, error)` becomes a
  function from the request inputs and the storage state to a `Result` (the
  pair of the optional response and the optional error) and the new storage.
* `req.Storage` is the in-memory key/value store used by the repository's tests
  (`logical.InmemStorage`): `Get`, `Put` and `Delete` never fail, but keep the
  error component of their Go signature so that every `if err != nil` branch
  of the source is visible in the embedding.
* `framework.FieldData` is modelled by the values that `data.Get` and
  `data.GetOk` return for the fields of the path's schema.
* The mutexes (`configMutex`, `roleMutex`) have no effect on a sequential
  execution and are left out.
* Everything that lives in the Vault SDK and not in this repository (the JSON
  codec behind `StorageEntryJSON` / `DecodeJSON`, `tokenutil.TokenParams` with
  `ParseTokenFields` and `PopulateTokenData`) is a field of the parameter
  `Sdk`.  A Go nil slice and an empty slice are both the empty list: the code
  observes them only through `len`.
-/

namespace Ociauth

/-! ## Data model -/

/-- Request operations of the Vault SDK (`logical.Operation`). -/
inductive Operation where
  | CreateOperation
  | ReadOperation
  | UpdateOperation
  | PatchOperation
  | DeleteOperation
  | ListOperation
  | HelpOperation
  | AliasLookaheadOperation
  | ResolveRoleOperation
  | RevokeOperation
  | RenewOperation
  | RollbackOperation
  deriving DecidableEq, Repr

/-- Struct to hold the information associated with an OCI config. -/
structure OCIConfigEntry where
  HomeTenancyId : String
  deriving DecidableEq, Repr

/-- Struct to hold the information associated with an OCI role; `TP` is the
embedded `tokenutil.TokenParams`. -/
structure OCIRoleEntry (TP : Type) where
  TokenParams : TP
  Role : String
  OcidList : List String
  deriving DecidableEq, Repr

/-- The parts of the Vault SDK the two stores call into. -/
structure Sdk where
  /-- The type of a storage entry's `Value` (the encoded JSON document). -/
  Bytes : Type
  /-- The type `tokenutil.TokenParams`. -/
  TokenParams : Type
  /-- The raw `token_*` fields of a request's field data. -/
  TokenFields : Type
  /-- The `token_*` keys of a response's data map. -/
  TokenData : Type
  /-- The zero value of `tokenutil.TokenParams`. -/
  zeroTokenParams : TokenParams
  /-- The method `(*TokenParams).ParseTokenFields(req, data)`. -/
  ParseTokenFields : Operation → TokenFields → TokenParams → Except String TokenParams
  /-- The method `(*TokenParams).PopulateTokenData(data)`. -/
  PopulateTokenData : TokenParams → TokenData
  /-- JSON encoding of a config entry, as done by `logical.StorageEntryJSON`. -/
  encodeConfig : OCIConfigEntry → Except String Bytes
  /-- JSON decoding into a config entry, as done by `entry.DecodeJSON`. -/
  decodeConfig : Bytes → Except String OCIConfigEntry
  /-- JSON encoding of a role entry, as done by `logical.StorageEntryJSON`. -/
  encodeRole : OCIRoleEntry TokenParams → Except String Bytes
  /-- JSON decoding into a role entry, as done by `entry.DecodeJSON`. -/
  decodeRole : Bytes → Except String (OCIRoleEntry TokenParams)

/-- The struct `logical.StorageEntry`. -/
structure StorageEntry (B : Type) where
  Key : String
  Value : B
  deriving DecidableEq, Repr

/-- The state of the in-memory storage: the list of its entries. -/
abbrev Storage (B : Type) := List (StorageEntry B)

/-- The method `Storage.Get`: the entry stored under `key`, if any. -/
def Storage.Get {B : Type} (s : Storage B) (key : String) :
    Except String (Option (StorageEntry B)) :=
  .ok (s.find? (fun e => e.Key == key))

/-- The method `Storage.Delete`: removes the entry stored under `key`. -/
def Storage.Delete {B : Type} (s : Storage B) (key : String) :
    Option String × Storage B :=
  (none, s.filter (fun e => e.Key != key))

/-- The method `Storage.Put`: stores `entry` under its key, replacing what was
stored there. -/
def Storage.Put {B : Type} (s : Storage B) (entry : StorageEntry B) :
    Option String × Storage B :=
  (none, entry :: s.filter (fun e => e.Key != entry.Key))

/-- The function `logical.StorageEntryJSON(k, v)` with the encoder of the type
of `v`. -/
def StorageEntryJSON {α B : Type} (enc : α → Except String B) (k : String) (v : α) :
    Except String (StorageEntry B) :=
  match enc v with
  | .error e => .error e
  | .ok b => .ok ⟨k, b⟩

/-- The data map of a role read: the keys `role` and `ocid_list` and the
`token_*` keys written by `PopulateTokenData`. -/
structure RoleResponseData (TD : Type) where
  role : String
  ocid_list : List String
  token : TD
  deriving DecidableEq, Repr

/-- The values of `*logical.Response` the two stores build. -/
inductive Response (TD : Type) where
  /-- The value `logical.ErrorResponse(text)`. -/
  | ErrorResponse (text : String)
  /-- The value `&logical.Response{}`. -/
  | empty
  /-- A response whose data is `OCIConfigEntry.ToResponseData()`. -/
  | configData (homeTenancyId : String)
  /-- A response whose data is the map built by `pathRoleRead`. -/
  | roleData (d : RoleResponseData TD)
  deriving DecidableEq, Repr

/-- The pair `(*logical.Response, error)` a handler returns; `none` is nil. -/
structure Result (TD : Type) where
  resp : Option (Response TD)
  err : Option String
  deriving DecidableEq, Repr

/-- The field data of a request on the path `config`. -/
structure ConfigFieldData where
  /-- The value of `data.Get("homeTenancyId").(string)`. -/
  homeTenancyId : String
  deriving DecidableEq, Repr

/-- The field data of a request on the path `role/<name>`. -/
structure RoleFieldData (TF : Type) where
  /-- The value of `data.Get("role").(string)`. -/
  role : String
  /-- The value of `data.GetOk("ocid_list")`: `none` when the field is not given. -/
  ocid_list : Option (List String)
  /-- The raw `token_*` fields, read by `ParseTokenFields` only. -/
  token : TF

/-! ## Strings -/

/-- The function `unicode.IsSpace` of Go. -/
def isSpace (c : Char) : Bool :=
  let n := c.toNat
  n == 0x09 || n == 0x0A || n == 0x0B || n == 0x0C || n == 0x0D || n == 0x20 ||
  n == 0x85 || n == 0xA0 || n == 0x1680 || (0x2000 ≤ n && n ≤ 0x200A) ||
  n == 0x2028 || n == 0x2029 || n == 0x202F || n == 0x205F || n == 0x3000

/-- The function `strings.TrimSpace`: removes leading and trailing white space. -/
def TrimSpace (s : String) : String :=
  ⟨((s.data.dropWhile isSpace).reverse.dropWhile isSpace).reverse⟩

/-! ## path_config.go -/

/-- The constant `HomeTenancyIdConfigName`. -/
def HomeTenancyIdConfigName : String := "homeTenancyId"

/-- The method `nonLockedOCIConfig`: returns the properties set on the config. -/
def nonLockedOCIConfig (K : Sdk) (s : Storage K.Bytes) :
    Except String (Option OCIConfigEntry) :=
  match Storage.Get s "config" with
  | .error err => .error err
  | .ok none => .ok none
  | .ok (some entry) =>
    match K.decodeConfig entry.Value with
    | .error err => .error err
    | .ok result => .ok (some result)

/-- The method `lockedOCIConfig`: `nonLockedOCIConfig` under the read lock. -/
def lockedOCIConfig (K : Sdk) (s : Storage K.Bytes) :
    Except String (Option OCIConfigEntry) :=
  match nonLockedOCIConfig K s with
  | .error err => .error err
  | .ok none => .ok none
  | .ok (some configEntry) => .ok (some configEntry)

/-- The method `nonLockedSetOCIConfig`: creates or updates the config in the
storage; `none` is the nil pointer. -/
def nonLockedSetOCIConfig (K : Sdk) (s : Storage K.Bytes)
    (configEntry : Option OCIConfigEntry) : Option String × Storage K.Bytes :=
  match configEntry with
  | none => (some "config is not found", s)
  | some c =>
    match StorageEntryJSON K.encodeConfig "config" c with
    | .error err => (some err, s)
    | .ok entry =>
      match Storage.Put s entry with
      | (some err, s1) => (some err, s1)
      | (none, s1) => (none, s1)

/-- The method `OCIConfigEntry.ToResponseData`. -/
def OCIConfigEntry.ToResponseData {TD : Type} (r : OCIConfigEntry) : Response TD :=
  .configData r.HomeTenancyId

/-- The handler `pathConfigExistenceCheck`. -/
def pathConfigExistenceCheck (K : Sdk) (s : Storage K.Bytes) : Except String Bool :=
  match lockedOCIConfig K s with
  | .error err => .error err
  | .ok entry => .ok entry.isSome

/-- The handler `pathConfigRead`. -/
def pathConfigRead (K : Sdk) (s : Storage K.Bytes) : Result K.TokenData × Storage K.Bytes :=
  match lockedOCIConfig K s with
  | .error err => (⟨none, some err⟩, s)
  | .ok none => (⟨none, none⟩, s)
  | .ok (some configEntry) => (⟨some configEntry.ToResponseData, none⟩, s)

/-- The handler `pathConfigCreate`: create a config. -/
def pathConfigCreate (K : Sdk) (data : ConfigFieldData) (s : Storage K.Bytes) :
    Result K.TokenData × Storage K.Bytes :=
  let homeTenancyId := data.homeTenancyId
  if TrimSpace homeTenancyId = "" then
    (⟨some (.ErrorResponse "missing homeTenancyId"), none⟩, s)
  else
    match nonLockedOCIConfig K s with
    | .error err => (⟨none, some err⟩, s)
    | .ok (some _) =>
      (⟨some (.ErrorResponse "The specified config already exists"), none⟩, s)
    | .ok none =>
      let configEntry : OCIConfigEntry := ⟨homeTenancyId⟩
      match nonLockedSetOCIConfig K s (some configEntry) with
      | (some err, s1) => (⟨none, some err⟩, s1)
      | (none, s1) => (⟨some .empty, none⟩, s1)

/-- The handler `pathConfigUpdate`: update a config. -/
def pathConfigUpdate (K : Sdk) (data : ConfigFieldData) (s : Storage K.Bytes) :
    Result K.TokenData × Storage K.Bytes :=
  let homeTenancyId := data.homeTenancyId
  if TrimSpace homeTenancyId = "" then
    (⟨some (.ErrorResponse "missing homeTenancyId"), none⟩, s)
  else
    match nonLockedOCIConfig K s with
    | .error err => (⟨none, some err⟩, s)
    | .ok none =>
      (⟨some (.ErrorResponse "The specified config does not exist"), none⟩, s)
    | .ok (some configEntry) =>
      let configEntry : OCIConfigEntry := { configEntry with HomeTenancyId := homeTenancyId }
      match nonLockedSetOCIConfig K s (some configEntry) with
      | (some err, s1) => (⟨none, some err⟩, s1)
      | (none, s1) => (⟨some .empty, none⟩, s1)

/-- The handler `pathConfigDelete`: delete a config. -/
def pathConfigDelete (K : Sdk) (s : Storage K.Bytes) : Result K.TokenData × Storage K.Bytes :=
  match Storage.Delete s "config" with
  | (err, s1) => (⟨none, err⟩, s1)

/-! ## path_role.go -/

/-- The constant `MaxOCIDsPerRole`. -/
def MaxOCIDsPerRole : Nat := 100

/-- The error `logical.ErrInvalidRequest`. -/
def ErrInvalidRequest : String := "invalid request"

/-- The method `nonLockedOCIRole`: returns the properties set on the given role. -/
def nonLockedOCIRole (K : Sdk) (s : Storage K.Bytes) (roleName : String) :
    Except String (Option (OCIRoleEntry K.TokenParams)) :=
  if roleName = "" then
    .error "missing role name"
  else
    match Storage.Get s ("role/" ++ roleName) with
    | .error err => .error err
    | .ok none => .ok none
    | .ok (some entry) =>
      match K.decodeRole entry.Value with
      | .error err => .error err
      | .ok result => .ok (some result)

/-- The method `lockedOCIRole`: `nonLockedOCIRole` under the read lock. -/
def lockedOCIRole (K : Sdk) (s : Storage K.Bytes) (roleName : String) :
    Except String (Option (OCIRoleEntry K.TokenParams)) :=
  if roleName = "" then
    .error "missing role name"
  else
    match nonLockedOCIRole K s roleName with
    | .error err => .error err
    | .ok none => .ok none
    | .ok (some roleEntry) => .ok (some roleEntry)

/-- The method `nonLockedSetOCIRole`: creates or updates a role in the storage;
`none` is the nil pointer. -/
def nonLockedSetOCIRole (K : Sdk) (s : Storage K.Bytes) (roleName : String)
    (roleEntry : Option (OCIRoleEntry K.TokenParams)) : Option String × Storage K.Bytes :=
  if roleName = "" then
    (some "missing role name", s)
  else
    match roleEntry with
    | none => (some "nil role entry", s)
    | some r =>
      match StorageEntryJSON K.encodeRole ("role/" ++ roleName) r with
      | .error err => (some err, s)
      | .ok entry =>
        match Storage.Put s entry with
        | (some err, s1) => (some err, s1)
        | (none, s1) => (none, s1)

/-- The handler `pathRoleExistenceCheck`. -/
def pathRoleExistenceCheck (K : Sdk) (data : RoleFieldData K.TokenFields)
    (s : Storage K.Bytes) : Except String Bool :=
  match lockedOCIRole K s data.role with
  | .error err => .error err
  | .ok entry => .ok entry.isSome

/-- The handler `pathRoleDelete`. -/
def pathRoleDelete (K : Sdk) (data : RoleFieldData K.TokenFields) (s : Storage K.Bytes) :
    Result K.TokenData × Storage K.Bytes :=
  let roleName := data.role
  match Storage.Delete s ("role/" ++ roleName) with
  | (err, s1) => (⟨none, err⟩, s1)

/-- The closure `convertNilToEmptySlice` of `pathRoleRead`, on the field
`ocid_list`. -/
def convertNilToEmptySlice (field : List String) : List String :=
  if field.length = 0 then [] else field

/-- The handler `pathRoleRead`. -/
def pathRoleRead (K : Sdk) (data : RoleFieldData K.TokenFields) (s : Storage K.Bytes) :
    Result K.TokenData × Storage K.Bytes :=
  match lockedOCIRole K s data.role with
  | .error err => (⟨none, some err⟩, s)
  | .ok none => (⟨none, none⟩, s)
  | .ok (some roleEntry) =>
    let responseData : RoleResponseData K.TokenData :=
      { role := roleEntry.Role
        ocid_list := convertNilToEmptySlice roleEntry.OcidList
        token := K.PopulateTokenData roleEntry.TokenParams }
    (⟨some (.roleData responseData), none⟩, s)

/-- The handler `pathRoleCreateUpdate`: create or update a role; `op` is
`req.Operation`. -/
def pathRoleCreateUpdate (K : Sdk) (op : Operation) (data : RoleFieldData K.TokenFields)
    (s : Storage K.Bytes) : Result K.TokenData × Storage K.Bytes :=
  let roleName := data.role
  match nonLockedOCIRole K s roleName with
  | .error err => (⟨none, some err⟩, s)
  | .ok roleEntry =>
    let roleEntry : Option (OCIRoleEntry K.TokenParams) :=
      if roleEntry.isNone ∧ op = .CreateOperation then
        some { TokenParams := K.zeroTokenParams, Role := roleName, OcidList := [] }
      else roleEntry
    match roleEntry with
    | none => (⟨some (.ErrorResponse "The specified role does not exist"), none⟩, s)
    | some roleEntry =>
      let roleEntry : OCIRoleEntry K.TokenParams :=
        match data.ocid_list with
        | some ocidList => { roleEntry with OcidList := ocidList }
        | none => roleEntry
      if data.ocid_list.isSome ∧ roleEntry.OcidList.length > MaxOCIDsPerRole then
        (⟨some (.ErrorResponse "Number of OCIDs for this role exceeds the limit"), none⟩, s)
      else
        match K.ParseTokenFields op data.token roleEntry.TokenParams with
        | .error err => (⟨some (.ErrorResponse err), some ErrInvalidRequest⟩, s)
        | .ok tokenParams =>
          let roleEntry : OCIRoleEntry K.TokenParams :=
            { roleEntry with TokenParams := tokenParams }
          match nonLockedSetOCIRole K s roleName (some roleEntry) with
          | (some err, s1) => (⟨none, some err⟩, s1)
          | (none, s1) => (⟨some .empty, none⟩, s1)

/-! ## A small instance of the SDK interface

Used to run the handlers on concrete requests. -/

/-- Token parameters of the instance: the policies and the TTL in seconds. -/
structure RefTokenParams where
  TokenPolicies : List String
  TokenTTL : Nat
  deriving DecidableEq, Repr

/-- Raw token fields of the instance: `token_policies` and `token_ttl`. -/
structure RefTokenFields where
  token_policies : Option (List String)
  token_ttl : Option Nat
  deriving DecidableEq, Repr

/-- Stored documents of the instance: an encoded config, an encoded role, or a
document that decodes into neither. -/
inductive RefBytes where
  | config (c : OCIConfigEntry)
  | role (r : OCIRoleEntry RefTokenParams)
  | junk
  deriving DecidableEq, Repr

/-- The instance: every given token field replaces the stored one, and a
document decodes into the type it was encoded from. -/
@[reducible]
def refSdk : Sdk where
  Bytes := RefBytes
  TokenParams := RefTokenParams
  TokenFields := RefTokenFields
  TokenData := RefTokenParams
  zeroTokenParams := ⟨[], 0⟩
  ParseTokenFields := fun _ f t =>
    .ok ⟨f.token_policies.getD t.TokenPolicies, f.token_ttl.getD t.TokenTTL⟩
  PopulateTokenData := fun t => t
  encodeConfig := fun c => .ok (.config c)
  decodeConfig := fun b =>
    match b with
    | .config c => .ok c
    | _ => .error "cannot decode a config entry"
  encodeRole := fun r => .ok (.role r)
  decodeRole := fun b =>
    match b with
    | .role r => .ok r
    | _ => .error "cannot decode a role entry"

/-- A request on `role/<name>` of the instance with the given OCID list and no
token field. -/
def roleRequest (name : String) (ocids : Option (List String)) :
    RoleFieldData refSdk.TokenFields :=
  ⟨name, ocids, (⟨none, none⟩ : RefTokenFields)⟩

/-- A storage of the instance holding one config with the given tenancy id. -/
def configStore (homeTenancyId : String) : Storage refSdk.Bytes :=
  [⟨"config", RefBytes.config ⟨homeTenancyId⟩⟩]

/-! ## Laws of the JSON codec -/

/-- A config entry can be encoded, and its encoding decodes to the same entry. -/
def ConfigJSONFaithful (K : Sdk) : Prop :=
  ∀ c : OCIConfigEntry, ∃ b, K.encodeConfig c = .ok b ∧ K.decodeConfig b = .ok c

/-- Decoding the encoding of a role entry gives back the entry. -/
def RoleJSONRoundTrip (K : Sdk) : Prop :=
  ∀ (r : OCIRoleEntry K.TokenParams) (b : K.Bytes),
    K.encodeRole r = .ok b → K.decodeRole b = .ok r

/-- Every role entry can be encoded. -/
def RoleJSONEncodes (K : Sdk) : Prop :=
  ∀ r : OCIRoleEntry K.TokenParams, ∃ b, K.encodeRole r = .ok b

/-- The method `ParseTokenFields` does not look at the operation of the request
it is given: it parses Create and Update requests alike. -/
def ParseTokenFieldsIgnoresOperation (K : Sdk) : Prop :=
  ∀ (f : K.TokenFields) (t : K.TokenParams),
    K.ParseTokenFields .CreateOperation f t = K.ParseTokenFields .UpdateOperation f t

/-- Decoding the encoding of a config entry gives back the entry. -/
def ConfigJSONRoundTrip (K : Sdk) : Prop :=
  ∀ (c : OCIConfigEntry) (b : K.Bytes),
    K.encodeConfig c = .ok b → K.decodeConfig b = .ok c

/-! ## Sequences of administrative requests -/

/-- A request that writes to the config store or to the role store, with the
callback the paths `config` and `role/<name>` register for it. -/
inductive AdminRequest (TF : Type) where
  /-- A Create on `config`: `pathConfigCreate`. -/
  | configCreate (data : ConfigFieldData)
  /-- An Update on `config`: `pathConfigUpdate`. -/
  | configUpdate (data : ConfigFieldData)
  /-- A Delete on `config`: `pathConfigDelete`. -/
  | configDelete
  /-- A Create or Update on `role/<name>`: `pathRoleCreateUpdate`. -/
  | roleCreateUpdate (op : Operation) (data : RoleFieldData TF)
  /-- A Delete on `role/<name>`: `pathRoleDelete`. -/
  | roleDelete (data : RoleFieldData TF)

/-- The callback of a request, run on the storage. -/
def AdminRequest.handle (K : Sdk) (req : AdminRequest K.TokenFields) (s : Storage K.Bytes) :
    Result K.TokenData × Storage K.Bytes :=
  match req with
  | .configCreate data => pathConfigCreate K data s
  | .configUpdate data => pathConfigUpdate K data s
  | .configDelete => pathConfigDelete K s
  | .roleCreateUpdate op data => pathRoleCreateUpdate K op data s
  | .roleDelete data => pathRoleDelete K data s

/-- The storage after a sequence of requests, each run on the storage the
previous one left. -/
def runRequests (K : Sdk) (reqs : List (AdminRequest K.TokenFields)) (s : Storage K.Bytes) :
    Storage K.Bytes :=
  reqs.foldl (fun st req => (AdminRequest.handle K req st).2) s

/-- The invariant of the store: every entry is a config under the key `config`
with a non-blank tenancy id, or a role under `role/<name>` with a non-empty
name, that name as its `Role` and at most `MaxOCIDsPerRole` OCIDs. -/
def StoreInvariant (K : Sdk) (s : Storage K.Bytes) : Prop :=
  ∀ e ∈ s,
    (e.Key = "config" ∧
      ∃ c, K.decodeConfig e.Value = .ok c ∧ TrimSpace c.HomeTenancyId ≠ "") ∨
    (∃ (name : String) (r : OCIRoleEntry K.TokenParams),
      e.Key = "role/" ++ name ∧ name ≠ "" ∧ K.decodeRole e.Value = .ok r ∧
        r.Role = name ∧ r.OcidList.length ≤ MaxOCIDsPerRole)

/-- The administrative scenario of the repository's tests on the instance: create
the config, create `devrole`, update the config, update `devrole` without an
OCID list, delete `kwrole`. -/
def adminScenario : List (AdminRequest refSdk.TokenFields) :=
  [ .configCreate ⟨"ocid1.tenancy.oc1..dummy"⟩,
    .roleCreateUpdate .CreateOperation
      ⟨"devrole", some ["g1", "g2"], (⟨some ["policy1", "policy2"], some 1500⟩ : RefTokenFields)⟩,
    .configUpdate ⟨"ocid1.tenancy.oc2..dummy"⟩,
    .roleCreateUpdate .UpdateOperation
      ⟨"devrole", none, (⟨some ["policy3"], none⟩ : RefTokenFields)⟩,
    .roleDelete (roleRequest "kwrole" none) ]

/-! ## Mutex and storage calls of the role and config handlers -/

/-- A call on the store's mutex or on `req.Storage`. -/
inductive MutexOrStorageCall where
  | Lock
  | Unlock
  | RLock
  | RUnlock
  | Get (key : String)
  | Put (key : String)
  | Delete (key : String)
  | List (pfx : String)
  deriving DecidableEq, Repr

/-- What a handler holds of the mutex at a point of its execution. -/
inductive Held where
  | nothing
  | shared
  | exclusive
  deriving DecidableEq, Repr

/-- The locking discipline on a sequence of calls: a read of the storage (`Get`,
`List`) happens while the mutex is held, shared or exclusive, and a write
(`Put`, `Delete`) while it is held exclusive. -/
def lockDiscipline : Held → List MutexOrStorageCall → Bool
  | _, [] => true
  | _, .Lock :: cs => lockDiscipline .exclusive cs
  | _, .Unlock :: cs => lockDiscipline .nothing cs
  | _, .RLock :: cs => lockDiscipline .shared cs
  | _, .RUnlock :: cs => lockDiscipline .nothing cs
  | h, .Get _ :: cs => h != .nothing && lockDiscipline h cs
  | h, .List _ :: cs => h != .nothing && lockDiscipline h cs
  | h, .Put _ :: cs => h == .exclusive && lockDiscipline h cs
  | h, .Delete _ :: cs => h == .exclusive && lockDiscipline h cs

/-- The mutex and storage calls of `pathRoleDelete`, in program order: the one
call `req.Storage.Delete(ctx, "role/"+roleName)`. -/
def pathRoleDelete_calls (roleName : String) : List MutexOrStorageCall :=
  [.Delete ("role/" ++ roleName)]

/-- The mutex and storage calls of `pathRoleList`, in program order: the one
call `req.Storage.List(ctx, "role/")`. -/
def pathRoleList_calls : List MutexOrStorageCall :=
  [.List "role/"]

/-- The mutex and storage calls of `pathConfigDelete`, in program order; the
deferred `Unlock` runs when the handler returns. -/
def pathConfigDelete_calls : List MutexOrStorageCall :=
  [.Lock, .Delete "config", .Unlock]

/-- The mutex and storage calls of `lockedOCIRole`, in program order. -/
def lockedOCIRole_calls (roleName : String) : List MutexOrStorageCall :=
  if roleName = "" then []
  else [.RLock, .Get ("role/" ++ roleName), .RUnlock]

/-! ## authentication_client.go

The request and response types are declared in files of the repository that are
not among the sources; they are modelled by the fields the client reads and
writes.  The package `common` of the OCI Go SDK (`Retry`, `NoRetryPolicy`,
`RetryToken`, `BaseClient.Call`, `UnmarshalResponse`) and the method
`HTTPRequest` of the request types are fields of the parameter `OciSdk`.  The
network and the random source live in the state `World`. -/

/-- The type `AuthenticateClientRequest`: the retry token (`none` is nil), the
value of `request.RetryPolicy()` (`none` is nil) and the remaining fields. -/
structure AuthenticateClientRequest (P D : Type) where
  OpcRetryToken : Option String
  RetryPolicy : Option P
  details : D
  deriving DecidableEq, Repr

/-- The type `FilterGroupMembershipRequest`: the retry token (`none` is nil), the
value of `request.RetryPolicy()` (`none` is nil) and the remaining fields. -/
structure FilterGroupMembershipRequest (P D : Type) where
  OpcRetryToken : Option String
  RetryPolicy : Option P
  details : D
  deriving DecidableEq, Repr

/-- The type `AuthenticateClientResponse`: the raw HTTP response (`none` is nil)
and the unmarshalled fields. -/
structure AuthenticateClientResponse (H R : Type) where
  RawResponse : Option H
  result : R
  deriving DecidableEq, Repr

/-- The type `FilterGroupMembershipResponse`: the raw HTTP response (`none` is
nil) and the unmarshalled fields. -/
structure FilterGroupMembershipResponse (H R : Type) where
  RawResponse : Option H
  result : R
  deriving DecidableEq, Repr

/-- The non-nil values of the interface `common.OCIResponse` the client meets. -/
inductive OCIResponse (H RA RF : Type) where
  | authenticateClient (r : AuthenticateClientResponse H RA)
  | filterGroupMembership (r : FilterGroupMembershipResponse H RF)
  deriving DecidableEq, Repr

/-- The method `HTTPResponse()` of a response: its raw HTTP response. -/
def OCIResponse.HTTPResponse {H RA RF : Type} : OCIResponse H RA RF → Option H
  | .authenticateClient r => r.RawResponse
  | .filterGroupMembership r => r.RawResponse

/-- The parts of the OCI Go SDK the authentication client calls into. -/
structure OciSdk where
  /-- The state of the network and of the random source. -/
  World : Type
  /-- The type `common.RetryPolicy`. -/
  RetryPolicy : Type
  /-- The type `http.Request`. -/
  HttpRequest : Type
  /-- The type `http.Response`. -/
  HttpResponse : Type
  /-- The binary request body and the extra headers `common.Retry` hands to the
  operation. -/
  Extras : Type
  /-- The fields of `AuthenticateClientRequest` besides token and policy. -/
  AuthDetails : Type
  /-- The unmarshalled fields of `AuthenticateClientResponse`. -/
  AuthResult : Type
  /-- The fields of `FilterGroupMembershipRequest` besides token and policy. -/
  FilterDetails : Type
  /-- The unmarshalled fields of `FilterGroupMembershipResponse`. -/
  FilterResult : Type
  /-- The zero value of the unmarshalled fields of `AuthenticateClientResponse`. -/
  zeroAuthResult : AuthResult
  /-- The zero value of the unmarshalled fields of `FilterGroupMembershipResponse`. -/
  zeroFilterResult : FilterResult
  /-- The function `common.NoRetryPolicy()`. -/
  NoRetryPolicy : RetryPolicy
  /-- The function `common.RetryToken()`: a token from the random source. -/
  RetryToken : World → String × World
  /-- The method `HTTPRequest(method, path, body, headers)` of
  `AuthenticateClientRequest`. -/
  authHTTPRequest : AuthenticateClientRequest RetryPolicy AuthDetails → String → String →
    Extras → Except String HttpRequest
  /-- The method `HTTPRequest(method, path, body, headers)` of
  `FilterGroupMembershipRequest`. -/
  filterHTTPRequest : FilterGroupMembershipRequest RetryPolicy FilterDetails → String →
    String → Extras → Except String HttpRequest
  /-- The method `client.Call(ctx, &httpRequest)`: the HTTP round trip. -/
  Call : HttpRequest → World → (Option HttpResponse × Option String) × World
  /-- The function `common.UnmarshalResponse` into an `AuthenticateClientResponse`. -/
  UnmarshalAuth : Option HttpResponse → AuthResult × Option String
  /-- The function `common.UnmarshalResponse` into a `FilterGroupMembershipResponse`. -/
  UnmarshalFilter : Option HttpResponse → FilterResult × Option String
  /-- The function `common.Retry(ctx, request, operation, policy)`, for a request
  of type `R`. -/
  Retry : (R : Type) → R →
    (R → Extras → World →
      (Option (OCIResponse HttpResponse AuthResult FilterResult) × Option String) × World) →
    RetryPolicy → World →
    (Option (OCIResponse HttpResponse AuthResult FilterResult) × Option String) × World

/-- The pair `(common.OCIResponse, error)` an operation returns; `none` is nil. -/
abbrev OciSdk.Outcome (O : OciSdk) : Type :=
  Option (OCIResponse O.HttpResponse O.AuthResult O.FilterResult) × Option String

/-- The method `authenticateClient`: one HTTP call of the authenticate
operation. -/
def authenticateClient (O : OciSdk)
    (request : AuthenticateClientRequest O.RetryPolicy O.AuthDetails) (extras : O.Extras)
    (w : O.World) : O.Outcome × O.World :=
  match O.authHTTPRequest request "POST" "/authentication/authenticateClient" extras with
  | .error err => ((none, some err), w)
  | .ok httpRequest =>
    match O.Call httpRequest w with
    | ((httpResponse, some err), w1) =>
      ((some (.authenticateClient ⟨httpResponse, O.zeroAuthResult⟩), some err), w1)
    | ((httpResponse, none), w1) =>
      match O.UnmarshalAuth httpResponse with
      | (result, err) => ((some (.authenticateClient ⟨httpResponse, result⟩), err), w1)

/-- The method `filterGroupMembership`: one HTTP call of the filter operation. -/
def filterGroupMembership (O : OciSdk)
    (request : FilterGroupMembershipRequest O.RetryPolicy O.FilterDetails) (extras : O.Extras)
    (w : O.World) : O.Outcome × O.World :=
  match O.filterHTTPRequest request "POST" "/filterGroupMembership" extras with
  | .error err => ((none, some err), w)
  | .ok httpRequest =>
    match O.Call httpRequest w with
    | ((httpResponse, some err), w1) =>
      ((some (.filterGroupMembership ⟨httpResponse, O.zeroFilterResult⟩), some err), w1)
    | ((httpResponse, none), w1) =>
      match O.UnmarshalFilter httpResponse with
      | (result, err) => ((some (.filterGroupMembership ⟨httpResponse, result⟩), err), w1)

/-- The first part of `AuthenticateClient`, up to the call of `common.Retry`: the
policy and the request handed to `common.Retry`. -/
def AuthenticateClient.outbound (O : OciSdk)
    (request : AuthenticateClientRequest O.RetryPolicy O.AuthDetails) (w : O.World) :
    (O.RetryPolicy × AuthenticateClientRequest O.RetryPolicy O.AuthDetails) × O.World :=
  let policy : O.RetryPolicy :=
    match request.RetryPolicy with
    | some p => p
    | none => O.NoRetryPolicy
  if ¬ (request.OpcRetryToken ≠ none ∧ request.OpcRetryToken ≠ some "") then
    match O.RetryToken w with
    | (token, w1) => ((policy, { request with OpcRetryToken := some token }), w1)
  else
    ((policy, request), w)

/-- The last part of `AuthenticateClient`, after the call of `common.Retry`: the
response and the error returned to the caller. -/
def AuthenticateClient.convert (O : OciSdk) (out : O.Outcome) :
    AuthenticateClientResponse O.HttpResponse O.AuthResult × Option String :=
  match out with
  | (ociResponse, some err) =>
    match ociResponse with
    | some r => (⟨r.HTTPResponse, O.zeroAuthResult⟩, some err)
    | none => (⟨none, O.zeroAuthResult⟩, some err)
  | (some (.authenticateClient convertedResponse), none) => (convertedResponse, none)
  | (_, none) =>
    (⟨none, O.zeroAuthResult⟩,
      some "failed to convert OCIResponse into AuthenticateClientResponse")

/-- The method `AuthenticateClient`: authenticates a client with the identity
service. -/
def AuthenticateClient (O : OciSdk)
    (request : AuthenticateClientRequest O.RetryPolicy O.AuthDetails) (w : O.World) :
    (AuthenticateClientResponse O.HttpResponse O.AuthResult × Option String) × O.World :=
  match AuthenticateClient.outbound O request w with
  | ((policy, request), w1) =>
    match O.Retry _ request (authenticateClient O) policy w1 with
    | (out, w2) => (AuthenticateClient.convert O out, w2)

/-- The first part of `FilterGroupMembership`, up to the call of `common.Retry`:
the policy and the request handed to `common.Retry`. -/
def FilterGroupMembership.outbound (O : OciSdk)
    (request : FilterGroupMembershipRequest O.RetryPolicy O.FilterDetails) (w : O.World) :
    (O.RetryPolicy × FilterGroupMembershipRequest O.RetryPolicy O.FilterDetails) × O.World :=
  let policy : O.RetryPolicy :=
    match request.RetryPolicy with
    | some p => p
    | none => O.NoRetryPolicy
  if ¬ (request.OpcRetryToken ≠ none ∧ request.OpcRetryToken ≠ some "") then
    match O.RetryToken w with
    | (token, w1) => ((policy, { request with OpcRetryToken := some token }), w1)
  else
    ((policy, request), w)

/-- The last part of `FilterGroupMembership`, after the call of `common.Retry`:
the response and the error returned to the caller. -/
def FilterGroupMembership.convert (O : OciSdk) (out : O.Outcome) :
    FilterGroupMembershipResponse O.HttpResponse O.FilterResult × Option String :=
  match out with
  | (ociResponse, some err) =>
    match ociResponse with
    | some r => (⟨r.HTTPResponse, O.zeroFilterResult⟩, some err)
    | none => (⟨none, O.zeroFilterResult⟩, some err)
  | (some (.filterGroupMembership convertedResponse), none) => (convertedResponse, none)
  | (_, none) =>
    (⟨none, O.zeroFilterResult⟩,
      some "failed to convert OCIResponse into FilterGroupMembershipResponse")

/-- The method `FilterGroupMembership`: filters group ids by the membership of a
principal. -/
def FilterGroupMembership (O : OciSdk)
    (request : FilterGroupMembershipRequest O.RetryPolicy O.FilterDetails) (w : O.World) :
    (FilterGroupMembershipResponse O.HttpResponse O.FilterResult × Option String) × O.World :=
  match FilterGroupMembership.outbound O request w with
  | ((policy, request), w1) =>
    match O.Retry _ request (filterGroupMembership O) policy w1 with
    | (out, w2) => (FilterGroupMembership.convert O out, w2)

/-- Under the policy `common.NoRetryPolicy()` the function `common.Retry` runs
the operation once, on the request it was given, and returns its result. -/
def NoRetrySingleAttempt (O : OciSdk) : Prop :=
  ∀ (R : Type) (request : R)
    (operation : R → O.Extras → O.World → O.Outcome × O.World) (w : O.World),
    ∃ extras, O.Retry R request operation O.NoRetryPolicy w = operation request extras w

/-! ## A small instance of the OCI SDK interface

Used to run the client on concrete requests: the network answers from a script
and records what it was sent. -/

/-- Retry policy of the instance: the number of attempts and whether a failed
attempt is retried. -/
structure RefRetryPolicy where
  MaximumNumberAttempts : Nat
  retryOnError : Bool
  deriving DecidableEq, Repr

/-- HTTP request of the instance: method, path and the retry token header. -/
structure RefHttpRequest where
  method : String
  path : String
  opcRetryToken : Option String
  deriving DecidableEq, Repr

/-- World of the instance: the scripted answers of the network (status code or
error), the requests sent so far, and the tokens the random source will give. -/
structure RefWorld where
  replies : List (Option Nat × Option String)
  sent : List RefHttpRequest
  tokens : List String
  deriving DecidableEq, Repr

/-- The retry loop of the instance: runs the operation, and again while it fails,
the policy retries failures and attempts remain. -/
def refRetryLoop {R X W : Type} (operation : R → W → (X × Option String) × W)
    (retryOnError : Bool) (request : R) : Nat → W → (X × Option String) × W
  | 0, w => operation request w
  | n + 1, w =>
    match operation request w with
    | ((x, some err), w1) =>
      if retryOnError then refRetryLoop operation retryOnError request n w1
      else ((x, some err), w1)
    | ((x, none), w1) => ((x, none), w1)

/-- The instance: the token is a header of the HTTP request, status 200 is a
success, the network answers from its script. -/
@[reducible]
def refOci : OciSdk where
  World := RefWorld
  RetryPolicy := RefRetryPolicy
  HttpRequest := RefHttpRequest
  HttpResponse := Nat
  Extras := Unit
  AuthDetails := String
  AuthResult := Option String
  FilterDetails := List String
  FilterResult := List String
  zeroAuthResult := none
  zeroFilterResult := []
  NoRetryPolicy := ⟨1, false⟩
  RetryToken := fun w =>
    match w.tokens with
    | [] => ("generated", w)
    | token :: rest => (token, { w with tokens := rest })
  authHTTPRequest := fun request method path _ => .ok ⟨method, path, request.OpcRetryToken⟩
  filterHTTPRequest := fun request method path _ => .ok ⟨method, path, request.OpcRetryToken⟩
  Call := fun httpRequest w =>
    match w.replies with
    | [] => ((none, some "connection refused"), { w with sent := w.sent ++ [httpRequest] })
    | reply :: rest => (reply, { w with replies := rest, sent := w.sent ++ [httpRequest] })
  UnmarshalAuth := fun httpResponse =>
    if httpResponse = some 200 then (some "principal", none) else (none, some "service error")
  UnmarshalFilter := fun httpResponse =>
    if httpResponse = some 200 then (["g1"], none) else ([], some "service error")
  Retry := fun _ request operation policy w =>
    refRetryLoop (fun r w1 => operation r () w1) policy.retryOnError request
      (policy.MaximumNumberAttempts - 1) w

/-! ## The login decision procedure

The file with the login path is not among the sources; the procedure is taken
from section 4.3 of the specification, on top of the config and role lookups of
`path_config.go` and `path_role.go`. -/

/-- Modelled from the spec: a reply of the Identity Verification Service (its
contract in section 6): a value, `Unauthorized`, or a transient error. -/
inductive ServiceReply (α : Type) where
  | ok (a : α)
  | Unauthorized
  | TransientError
  deriving DecidableEq, Repr

/-- Modelled from the spec: the transient `Principal` of section 3, the opaque
caller identity the service resolves. -/
structure Principal where
  identity : String
  deriving DecidableEq, Repr

/-- Modelled from the spec: the Identity Verification Service of section 6, with
`authenticate(signedRequestBundle, tenantScope, idempotencyToken)` and
`filterGroupMembership(principal, candidateGroupIds)`. -/
structure IdentityService (Bundle : Type) where
  authenticate : Bundle → String → String → ServiceReply Principal
  filterGroupMembership : Principal → List String → ServiceReply (List String)

/-- Modelled from the spec: the reasons of a `Denial` named in section 4.3. -/
inductive DenialReason where
  | PreconditionFailed
  | Unauthorized
  deriving DecidableEq, Repr

/-- Modelled from the spec: the `LoginOutcome` of section 3 with the error kinds
of section 7: a grant of the role's token parameters with the principal's
identity, a denial, an `Upstream` error, or a rejected request when a store
lookup fails (a case section 4.3 leaves open). -/
inductive LoginOutcome (TP : Type) where
  | Grant (tokenParams : TP) (principalIdentity : String)
  | Denial (reason : DenialReason)
  | Upstream
  | Rejected (err : String)
  deriving DecidableEq, Repr

/-- Modelled from the spec: a call of the login procedure to the Identity
Verification Service. -/
inductive ServiceCall where
  | authenticate
  | filterGroupMembership (candidateGroupIds : List String)
  deriving DecidableEq, Repr

/-- Modelled from the spec: the outcome of a login attempt and the service calls
it made, in order. -/
structure LoginResult (TP : Type) where
  outcome : LoginOutcome TP
  calls : List ServiceCall
  deriving DecidableEq, Repr

/-- Modelled from the spec: the login decision procedure of section 4.3
(`LoginAuthorizer`), whose source file is missing. Step 1 resolves the config
(absent: `PreconditionFailed`), step 2 the role (absent: `Unauthorized`), step 3
delegates identity resolution (invalid: `Unauthorized`, transient failure:
`Upstream`), step 4 short-circuits to `Unauthorized` on an empty allow-list and
otherwise filters the allow-list by membership, step 5 grants when the returned
subset is not empty, step 6 assembles the grant from the role's token
parameters and the principal's identity. -/
def LoginAuthorizer.login {Bundle : Type} (K : Sdk) (svc : IdentityService Bundle)
    (s : Storage K.Bytes) (roleName : String) (_authType : String) (bundle : Bundle)
    (idempotencyToken : String) : LoginResult K.TokenParams :=
  match lockedOCIConfig K s with
  | .error err => ⟨.Rejected err, []⟩
  | .ok none => ⟨.Denial .PreconditionFailed, []⟩
  | .ok (some config) =>
    match lockedOCIRole K s roleName with
    | .error err => ⟨.Rejected err, []⟩
    | .ok none => ⟨.Denial .Unauthorized, []⟩
    | .ok (some role) =>
      match svc.authenticate bundle config.HomeTenancyId idempotencyToken with
      | .Unauthorized => ⟨.Denial .Unauthorized, [.authenticate]⟩
      | .TransientError => ⟨.Upstream, [.authenticate]⟩
      | .ok principal =>
        if role.OcidList.isEmpty then
          ⟨.Denial .Unauthorized, [.authenticate]⟩
        else
          match svc.filterGroupMembership principal role.OcidList with
          | .Unauthorized =>
            ⟨.Denial .Unauthorized, [.authenticate, .filterGroupMembership role.OcidList]⟩
          | .TransientError =>
            ⟨.Upstream, [.authenticate, .filterGroupMembership role.OcidList]⟩
          | .ok subset =>
            if subset.isEmpty then
              ⟨.Denial .Unauthorized, [.authenticate, .filterGroupMembership role.OcidList]⟩
            else
              ⟨.Grant role.TokenParams principal.identity,
                [.authenticate, .filterGroupMembership role.OcidList]⟩

/-- Modelled from the spec: the most permissive Identity Verification Service,
which resolves every bundle to a principal and reports membership in every
candidate group. -/
def permissiveService : IdentityService String where
  authenticate := fun bundle _ _ => .ok ⟨bundle⟩
  filterGroupMembership := fun _ candidateGroupIds => .ok candidateGroupIds

/-- The store of the login tests on the instance: a config, `devrole` with two
group ids and `opsrole` with an empty OCID list. -/
def loginStore : Storage refSdk.Bytes :=
  [ ⟨"config", RefBytes.config ⟨"ocid1.tenancy.oc1..dummy"⟩⟩,
    ⟨"role/devrole", RefBytes.role ⟨⟨["policy1", "policy2"], 1500⟩, "devrole", ["g1", "g2"]⟩⟩,
    ⟨"role/opsrole", RefBytes.role ⟨⟨["policy3"], 1000⟩, "opsrole", []⟩⟩ ]

/-! ## Lemmas on strings and on the storage -/

theorem all_dropWhile {α : Type} (p : α → Bool) (l : List α) :
    (∀ x ∈ l.dropWhile p, p x = true) ↔ ∀ x ∈ l, p x = true := by
  induction l with
  | nil => simp
  | cons a t ih =>
    by_cases h : p a = true
    · simp [List.dropWhile, h, ih]
    · simp [List.dropWhile, h]

theorem TrimSpace_eq_empty_iff (v : String) :
    TrimSpace v = "" ↔ ∀ c ∈ v.data, isSpace c = true := by
  have h1 : TrimSpace v = "" ↔
      ((v.data.dropWhile isSpace).reverse.dropWhile isSpace) = [] := by
    unfold TrimSpace
    constructor
    · intro h
      have h2 := congrArg String.data h
      simpa using h2
    · intro h
      rw [h]
      rfl
  rw [h1, List.dropWhile_eq_nil_iff]
  constructor
  · intro h
    exact (all_dropWhile isSpace v.data).1 (fun x hx => h x (List.mem_reverse.2 hx))
  · intro h x hx
    exact (all_dropWhile isSpace v.data).2 h x (List.mem_reverse.1 hx)

theorem find_filter_self {B : Type} (s : Storage B) (k : String) :
    (s.filter (fun e => e.Key != k)).find? (fun e => e.Key == k) = none := by
  induction s with
  | nil => rfl
  | cons a t ih =>
    by_cases h : a.Key = k
    · have hb : (a.Key != k) = false := by simp [h]
      simp only [List.filter_cons, hb]
      exact ih
    · have hb : (a.Key != k) = true := by simp [h]
      have hc : (a.Key == k) = false := by simp [h]
      simp only [List.filter_cons, hb, if_true, List.find?_cons, hc]
      exact ih

theorem find_filter_ne {B : Type} (s : Storage B) (k k2 : String) (hk : k2 ≠ k) :
    (s.filter (fun e => e.Key != k)).find? (fun e => e.Key == k2) =
      s.find? (fun e => e.Key == k2) := by
  induction s with
  | nil => rfl
  | cons a t ih =>
    by_cases h : a.Key = k
    · have hb : (a.Key != k) = false := by simp [h]
      have hc : (a.Key == k2) = false := by
        simp only [beq_eq_false_iff_ne, ne_eq]
        exact fun h3 => hk (h3.symm.trans h)
      simp only [List.filter_cons, hb, List.find?_cons, hc]
      exact ih
    · have hb : (a.Key != k) = true := by simp [h]
      simp only [List.filter_cons, hb, List.find?_cons, ih, if_true]

theorem filter_of_find_none {B : Type} (s : Storage B) (k : String)
    (h : s.find? (fun e => e.Key == k) = none) :
    s.filter (fun e => e.Key != k) = s := by
  induction s with
  | nil => rfl
  | cons a t ih =>
    rw [List.find?_cons] at h
    by_cases h2 : a.Key = k
    · have hc : (a.Key == k) = true := by simp [h2]
      rw [hc] at h
      exact absurd h (by simp)
    · have hc : (a.Key == k) = false := by simp [h2]
      have hb : (a.Key != k) = true := by simp [h2]
      rw [hc] at h
      simp only [List.filter_cons, hb, if_true, ih h]

theorem Get_Delete_self {B : Type} (s : Storage B) (k : String) :
    Storage.Get (Storage.Delete s k).2 k = .ok none := by
  simp [Storage.Get, Storage.Delete, find_filter_self]

theorem Get_Delete_ne {B : Type} (s : Storage B) (k k2 : String) (hk : k2 ≠ k) :
    Storage.Get (Storage.Delete s k).2 k2 = Storage.Get s k2 := by
  simp [Storage.Get, Storage.Delete, find_filter_ne s k k2 hk]

theorem Get_Put_self {B : Type} (s : Storage B) (e : StorageEntry B) :
    Storage.Get (Storage.Put s e).2 e.Key = .ok (some e) := by
  simp [Storage.Get, Storage.Put, List.find?]

theorem Get_Put_ne {B : Type} (s : Storage B) (e : StorageEntry B) (k2 : String)
    (hk : k2 ≠ e.Key) :
    Storage.Get (Storage.Put s e).2 k2 = Storage.Get s k2 := by
  have hc : (e.Key == k2) = false := by
    simp only [beq_eq_false_iff_ne, ne_eq]
    exact fun h => hk h.symm
  simp only [Storage.Get, Storage.Put, List.find?_cons, hc, find_filter_ne s e.Key k2 hk]

theorem Delete_of_Get_none {B : Type} (s : Storage B) (k : String)
    (h : Storage.Get s k = .ok none) : Storage.Delete s k = (none, s) := by
  simp only [Storage.Get, Except.ok.injEq] at h
  simp [Storage.Delete, filter_of_find_none s k h]

theorem nonLockedOCIConfig_none_iff (K : Sdk) (s : Storage K.Bytes) :
    nonLockedOCIConfig K s = .ok none ↔ Storage.Get s "config" = .ok none := by
  unfold nonLockedOCIConfig
  cases hg : Storage.Get s "config" with
  | error e => simp
  | ok o =>
    cases o with
    | none => simp
    | some entry =>
      cases hd : K.decodeConfig entry.Value <;> simp [hd]

theorem refSdk_ConfigJSONFaithful : ConfigJSONFaithful refSdk :=
  fun c => ⟨RefBytes.config c, rfl, rfl⟩

theorem nonLockedSetOCIConfig_ok (K : Sdk) (s : Storage K.Bytes) (c : OCIConfigEntry)
    (b : K.Bytes) (hb : K.encodeConfig c = .ok b) :
    nonLockedSetOCIConfig K s (some c) = (none, (Storage.Put s ⟨"config", b⟩).2) := by
  simp [nonLockedSetOCIConfig, StorageEntryJSON, hb, Storage.Put]

theorem nonLockedOCIConfig_Put (K : Sdk) (s : Storage K.Bytes) (c : OCIConfigEntry)
    (b : K.Bytes) (hd : K.decodeConfig b = .ok c) :
    nonLockedOCIConfig K (Storage.Put s ⟨"config", b⟩).2 = .ok (some c) := by
  have h := Get_Put_self s (⟨"config", b⟩ : StorageEntry K.Bytes)
  simp only at h
  simp [nonLockedOCIConfig, h, hd]

theorem pathConfigRead_of_config (K : Sdk) (s : Storage K.Bytes) (o : Option OCIConfigEntry)
    (h : nonLockedOCIConfig K s = .ok o) :
    pathConfigRead K s = (⟨o.map (fun c => Response.configData c.HomeTenancyId), none⟩, s) := by
  cases o <;> simp [pathConfigRead, lockedOCIConfig, h, OCIConfigEntry.ToResponseData]

/-! ## The config store -/

/-- C1: when a config record exists and the given homeTenancyId is not blank,
pathConfigCreate answers with the error response "The specified config already
exists" and the storage, and so the stored config, is unchanged. -/
theorem pathConfigCreate_already_exists (K : Sdk) (s : Storage K.Bytes)
    (c : OCIConfigEntry) (v : String)
    (hv : TrimSpace v ≠ "") (hc : nonLockedOCIConfig K s = .ok (some c)) :
    pathConfigCreate K ⟨v⟩ s =
        (⟨some (.ErrorResponse "The specified config already exists"), none⟩, s) ∧
      nonLockedOCIConfig K (pathConfigCreate K ⟨v⟩ s).2 = .ok (some c) := by
  have h : pathConfigCreate K ⟨v⟩ s =
      (⟨some (.ErrorResponse "The specified config already exists"), none⟩, s) := by
    simp [pathConfigCreate, hv, hc]
  exact ⟨h, by rw [h]; exact hc⟩

theorem pathConfigCreate_already_exists_witness :
    TrimSpace "ocid1.tenancy.oc2..dummy" ≠ "" ∧
      nonLockedOCIConfig refSdk (configStore "ocid1.tenancy.oc1..dummy") =
        .ok (some ⟨"ocid1.tenancy.oc1..dummy"⟩) ∧
      pathConfigCreate refSdk ⟨"ocid1.tenancy.oc2..dummy"⟩ (configStore "ocid1.tenancy.oc1..dummy") =
        (⟨some (.ErrorResponse "The specified config already exists"), none⟩,
          configStore "ocid1.tenancy.oc1..dummy") :=
  ⟨by decide, rfl,
    (pathConfigCreate_already_exists refSdk (configStore "ocid1.tenancy.oc1..dummy")
      ⟨"ocid1.tenancy.oc1..dummy"⟩ "ocid1.tenancy.oc2..dummy" (by decide) rfl).1⟩

/-- C2: when no config record exists and the given homeTenancyId is not blank,
pathConfigUpdate answers with the error response "The specified config does not
exist", leaves the storage as it was, and a read afterwards still returns
absent. -/
theorem pathConfigUpdate_missing (K : Sdk) (s : Storage K.Bytes) (v : String)
    (hv : TrimSpace v ≠ "") (hc : nonLockedOCIConfig K s = .ok none) :
    pathConfigUpdate K ⟨v⟩ s =
        (⟨some (.ErrorResponse "The specified config does not exist"), none⟩, s) ∧
      (pathConfigRead K (pathConfigUpdate K ⟨v⟩ s).2).1 = ⟨none, none⟩ := by
  have h : pathConfigUpdate K ⟨v⟩ s =
      (⟨some (.ErrorResponse "The specified config does not exist"), none⟩, s) := by
    simp [pathConfigUpdate, hv, hc]
  refine ⟨h, ?_⟩
  rw [h, pathConfigRead_of_config K s none hc]
  rfl

theorem pathConfigUpdate_missing_witness :
    TrimSpace "ocid1.tenancy.oc2..dummy" ≠ "" ∧
      nonLockedOCIConfig refSdk [] = .ok none ∧
      pathConfigUpdate refSdk ⟨"ocid1.tenancy.oc2..dummy"⟩ [] =
        (⟨some (.ErrorResponse "The specified config does not exist"), none⟩, []) :=
  ⟨by decide, rfl,
    (pathConfigUpdate_missing refSdk [] "ocid1.tenancy.oc2..dummy" (by decide) rfl).1⟩

/-- C3: when the given homeTenancyId is empty or made of white space only,
pathConfigCreate and pathConfigUpdate both answer with the error response
"missing homeTenancyId", whatever the storage holds, and leave the storage
unchanged. -/
theorem pathConfig_blank_homeTenancyId (K : Sdk) (s : Storage K.Bytes) (v : String)
    (hv : ∀ c ∈ v.data, isSpace c = true) :
    pathConfigCreate K ⟨v⟩ s = (⟨some (.ErrorResponse "missing homeTenancyId"), none⟩, s) ∧
      pathConfigUpdate K ⟨v⟩ s = (⟨some (.ErrorResponse "missing homeTenancyId"), none⟩, s) := by
  have h : TrimSpace v = "" := (TrimSpace_eq_empty_iff v).2 hv
  exact ⟨by simp [pathConfigCreate, h], by simp [pathConfigUpdate, h]⟩

theorem pathConfig_blank_homeTenancyId_witness :
    (∀ c ∈ " \t".data, isSpace c = true) ∧
      pathConfigCreate refSdk ⟨" \t"⟩ (configStore "ocid1.tenancy.oc1..dummy") =
        (⟨some (.ErrorResponse "missing homeTenancyId"), none⟩,
          configStore "ocid1.tenancy.oc1..dummy") ∧
      pathConfigUpdate refSdk ⟨" \t"⟩ [] =
        (⟨some (.ErrorResponse "missing homeTenancyId"), none⟩, []) :=
  ⟨by decide,
    (pathConfig_blank_homeTenancyId refSdk (configStore "ocid1.tenancy.oc1..dummy") " \t"
      (by decide)).1,
    (pathConfig_blank_homeTenancyId refSdk [] " \t" (by decide)).2⟩

/-- C4: with a faithful JSON codec, pathConfigCreate of a non-blank value v on a
store without a config succeeds and a read afterwards returns homeTenancyId = v,
unchanged; pathConfigUpdate of a non-blank value v2 on a store with a config
succeeds and a read afterwards returns homeTenancyId = v2. -/
theorem config_write_read_round_trip (K : Sdk) (hJ : ConfigJSONFaithful K)
    (s : Storage K.Bytes) :
    (∀ v : String, TrimSpace v ≠ "" → nonLockedOCIConfig K s = .ok none →
        (pathConfigCreate K ⟨v⟩ s).1 = ⟨some .empty, none⟩ ∧
        (pathConfigRead K (pathConfigCreate K ⟨v⟩ s).2).1 =
          ⟨some (.configData v), none⟩) ∧
      (∀ (v2 : String) (c : OCIConfigEntry), TrimSpace v2 ≠ "" →
        nonLockedOCIConfig K s = .ok (some c) →
        (pathConfigUpdate K ⟨v2⟩ s).1 = ⟨some .empty, none⟩ ∧
        (pathConfigRead K (pathConfigUpdate K ⟨v2⟩ s).2).1 =
          ⟨some (.configData v2), none⟩) := by
  constructor
  · intro v hv hc
    obtain ⟨b, hb, hd⟩ := hJ ⟨v⟩
    have h : pathConfigCreate K ⟨v⟩ s =
        (⟨some .empty, none⟩, (Storage.Put s ⟨"config", b⟩).2) := by
      simp [pathConfigCreate, hv, hc, nonLockedSetOCIConfig_ok K s ⟨v⟩ b hb]
    rw [h, pathConfigRead_of_config K _ _ (nonLockedOCIConfig_Put K s ⟨v⟩ b hd)]
    exact ⟨rfl, rfl⟩
  · intro v2 c hv hc
    obtain ⟨b, hb, hd⟩ := hJ ⟨v2⟩
    have h : pathConfigUpdate K ⟨v2⟩ s =
        (⟨some .empty, none⟩, (Storage.Put s ⟨"config", b⟩).2) := by
      simp [pathConfigUpdate, hv, hc, nonLockedSetOCIConfig_ok K s ⟨v2⟩ b hb]
    rw [h, pathConfigRead_of_config K _ _ (nonLockedOCIConfig_Put K s ⟨v2⟩ b hd)]
    exact ⟨rfl, rfl⟩

theorem config_write_read_round_trip_witness :
    ConfigJSONFaithful refSdk ∧
      (pathConfigRead refSdk (pathConfigCreate refSdk ⟨" ocid1.tenancy.oc1..dummy "⟩ []).2).1 =
        ⟨some (.configData " ocid1.tenancy.oc1..dummy "), none⟩ ∧
      (pathConfigRead refSdk
          (pathConfigUpdate refSdk ⟨"ocid1.tenancy.oc2..dummy"⟩
            (configStore "ocid1.tenancy.oc1..dummy")).2).1 =
        ⟨some (.configData "ocid1.tenancy.oc2..dummy"), none⟩ :=
  ⟨refSdk_ConfigJSONFaithful,
    ((config_write_read_round_trip refSdk refSdk_ConfigJSONFaithful []).1
      " ocid1.tenancy.oc1..dummy " (by decide) rfl).2,
    ((config_write_read_round_trip refSdk refSdk_ConfigJSONFaithful
      (configStore "ocid1.tenancy.oc1..dummy")).2
      "ocid1.tenancy.oc2..dummy" ⟨"ocid1.tenancy.oc1..dummy"⟩ (by decide) rfl).2⟩

/-- C5: pathConfigDelete never fails; a read after it returns absent; on a store
with no config it leaves the storage unchanged; and deleting twice gives the
same result and storage as deleting once. -/
theorem pathConfigDelete_idempotent (K : Sdk) (s : Storage K.Bytes) :
    (pathConfigDelete K s).1 = ⟨none, none⟩ ∧
      (pathConfigRead K (pathConfigDelete K s).2).1 = ⟨none, none⟩ ∧
      (nonLockedOCIConfig K s = .ok none → pathConfigDelete K s = (⟨none, none⟩, s)) ∧
      pathConfigDelete K (pathConfigDelete K s).2 = pathConfigDelete K s := by
  have hg : nonLockedOCIConfig K (pathConfigDelete K s).2 = .ok none :=
    (nonLockedOCIConfig_none_iff K _).2 (Get_Delete_self s "config")
  have hn : ∀ s1 : Storage K.Bytes, nonLockedOCIConfig K s1 = .ok none →
      pathConfigDelete K s1 = (⟨none, none⟩, s1) := by
    intro s1 h1
    have h2 := Delete_of_Get_none s1 "config" ((nonLockedOCIConfig_none_iff K s1).1 h1)
    simp [pathConfigDelete, h2]
  refine ⟨rfl, ?_, hn s, ?_⟩
  · rw [pathConfigRead_of_config K _ none hg]
    rfl
  · rw [hn _ hg]
    rfl

theorem pathConfigDelete_idempotent_witness :
    nonLockedOCIConfig refSdk [] = .ok none ∧
      pathConfigDelete refSdk [] = (⟨none, none⟩, []) :=
  ⟨rfl, (pathConfigDelete_idempotent refSdk []).2.2.1 rfl⟩

/-! ## The role store -/

theorem nonLockedOCIRole_of_Get_none (K : Sdk) (s : Storage K.Bytes) (roleName : String)
    (hn : roleName ≠ "") (hg : Storage.Get s ("role/" ++ roleName) = .ok none) :
    nonLockedOCIRole K s roleName = .ok none := by
  simp [nonLockedOCIRole, hn, hg]

theorem pathRoleRead_of_role_none (K : Sdk) (data : RoleFieldData K.TokenFields)
    (s : Storage K.Bytes) (hn : data.role ≠ "")
    (h : nonLockedOCIRole K s data.role = .ok none) :
    pathRoleRead K data s = (⟨none, none⟩, s) := by
  simp [pathRoleRead, lockedOCIRole, hn, h]

theorem pathRoleCreateUpdate_lookup_error (K : Sdk) (op : Operation)
    (data : RoleFieldData K.TokenFields) (s : Storage K.Bytes) (err : String)
    (hr : nonLockedOCIRole K s data.role = .error err) :
    pathRoleCreateUpdate K op data s = (⟨none, some err⟩, s) := by
  simp [pathRoleCreateUpdate, hr]

theorem pathRoleCreateUpdate_absent (K : Sdk) (op : Operation)
    (data : RoleFieldData K.TokenFields) (s : Storage K.Bytes)
    (hr : nonLockedOCIRole K s data.role = .ok none) (hop : op ≠ .CreateOperation) :
    pathRoleCreateUpdate K op data s =
      (⟨some (.ErrorResponse "The specified role does not exist"), none⟩, s) := by
  simp [pathRoleCreateUpdate, hr, hop]

theorem pathRoleCreateUpdate_from (K : Sdk) (op : Operation)
    (data : RoleFieldData K.TokenFields) (s : Storage K.Bytes)
    (found : Option (OCIRoleEntry K.TokenParams)) (e0 : OCIRoleEntry K.TokenParams)
    (hr : nonLockedOCIRole K s data.role = .ok found)
    (h0 : found = some e0 ∨
      (found = none ∧ op = .CreateOperation ∧ e0 = ⟨K.zeroTokenParams, data.role, []⟩)) :
    pathRoleCreateUpdate K op data s =
      if data.ocid_list.isSome ∧ (data.ocid_list.getD e0.OcidList).length > MaxOCIDsPerRole then
        (⟨some (.ErrorResponse "Number of OCIDs for this role exceeds the limit"), none⟩, s)
      else
        match K.ParseTokenFields op data.token e0.TokenParams with
        | .error err => (⟨some (.ErrorResponse err), some ErrInvalidRequest⟩, s)
        | .ok tokenParams =>
          match nonLockedSetOCIRole K s data.role
              (some ⟨tokenParams, e0.Role, data.ocid_list.getD e0.OcidList⟩) with
          | (some err, s1) => (⟨none, some err⟩, s1)
          | (none, s1) => (⟨some .empty, none⟩, s1) := by
  rcases h0 with h0 | ⟨h0, hop, he⟩
  · subst h0
    cases hl : data.ocid_list <;> simp [pathRoleCreateUpdate, hr, hl]
  · subst h0
    subst he
    cases hl : data.ocid_list <;> simp [pathRoleCreateUpdate, hr, hl, hop]

theorem nonLockedOCIRole_name_ne (K : Sdk) (s : Storage K.Bytes) (roleName : String)
    (found : Option (OCIRoleEntry K.TokenParams))
    (hr : nonLockedOCIRole K s roleName = .ok found) : roleName ≠ "" := by
  intro h
  simp [nonLockedOCIRole, h] at hr

theorem nonLockedSetOCIRole_eq (K : Sdk) (s : Storage K.Bytes) (roleName : String)
    (r : OCIRoleEntry K.TokenParams) (hn : roleName ≠ "") :
    nonLockedSetOCIRole K s roleName (some r) =
      match K.encodeRole r with
      | .error err => (some err, s)
      | .ok b => (none, (Storage.Put s ⟨"role/" ++ roleName, b⟩).2) := by
  cases he : K.encodeRole r <;>
    simp [nonLockedSetOCIRole, hn, StorageEntryJSON, he, Storage.Put]

theorem pathRoleCreateUpdate_cases (K : Sdk) (op : Operation)
    (data : RoleFieldData K.TokenFields) (s : Storage K.Bytes) :
    ((pathRoleCreateUpdate K op data s).2 = s ∧
        (pathRoleCreateUpdate K op data s).1 ≠ ⟨some .empty, none⟩) ∨
      ∃ (found : Option (OCIRoleEntry K.TokenParams)) (e0 : OCIRoleEntry K.TokenParams)
        (tp : K.TokenParams) (b : K.Bytes),
        data.role ≠ "" ∧
        nonLockedOCIRole K s data.role = .ok found ∧
        (found = some e0 ∨
          (found = none ∧ op = .CreateOperation ∧ e0 = ⟨K.zeroTokenParams, data.role, []⟩)) ∧
        (∀ l, data.ocid_list = some l → l.length ≤ MaxOCIDsPerRole) ∧
        K.ParseTokenFields op data.token e0.TokenParams = .ok tp ∧
        K.encodeRole ⟨tp, e0.Role, data.ocid_list.getD e0.OcidList⟩ = .ok b ∧
        pathRoleCreateUpdate K op data s =
          (⟨some .empty, none⟩, (Storage.Put s ⟨"role/" ++ data.role, b⟩).2) := by
  cases hr : nonLockedOCIRole K s data.role with
  | error err =>
    left
    rw [pathRoleCreateUpdate_lookup_error K op data s err hr]
    simp
  | ok found =>
    have hn := nonLockedOCIRole_name_ne K s data.role found hr
    by_cases hor : found.isSome ∨ op = .CreateOperation
    · have hstart : ∃ e0 : OCIRoleEntry K.TokenParams, found = some e0 ∨
          (found = none ∧ op = .CreateOperation ∧ e0 = ⟨K.zeroTokenParams, data.role, []⟩) := by
        cases found with
        | none =>
          exact ⟨⟨K.zeroTokenParams, data.role, []⟩, Or.inr ⟨rfl, by simpa using hor, rfl⟩⟩
        | some e0 => exact ⟨e0, Or.inl rfl⟩
      obtain ⟨e0, h0⟩ := hstart
      have hfrom := pathRoleCreateUpdate_from K op data s found e0 hr h0
      by_cases hlim : data.ocid_list.isSome ∧
          (data.ocid_list.getD e0.OcidList).length > MaxOCIDsPerRole
      · left
        rw [hfrom, if_pos hlim]
        simp
      · rw [if_neg hlim] at hfrom
        cases hp : K.ParseTokenFields op data.token e0.TokenParams with
        | error err =>
          left
          rw [hfrom, hp]
          simp
        | ok tp =>
          rw [hp] at hfrom
          simp only [nonLockedSetOCIRole_eq K s data.role _ hn] at hfrom
          cases he : K.encodeRole ⟨tp, e0.Role, data.ocid_list.getD e0.OcidList⟩ with
          | error err =>
            left
            rw [hfrom, he]
            simp
          | ok b =>
            right
            refine ⟨found, e0, tp, b, hn, rfl, h0, ?_, hp, he, ?_⟩
            · intro l hl
              rw [hl] at hlim
              simp only [Option.isSome_some, Option.getD_some, true_and, gt_iff_lt,
                not_lt] at hlim
              exact hlim
            · rw [hfrom, he]
    · have hnone : found = none := by
        cases found with
        | none => rfl
        | some e => exact absurd (Or.inl rfl) hor
      subst hnone
      left
      rw [pathRoleCreateUpdate_absent K op data s hr (fun h => hor (Or.inr h))]
      simp

theorem nonLockedOCIRole_Put (K : Sdk) (s : Storage K.Bytes) (roleName : String)
    (b : K.Bytes) (hn : roleName ≠ "") :
    nonLockedOCIRole K (Storage.Put s ⟨"role/" ++ roleName, b⟩).2 roleName =
      match K.decodeRole b with
      | .error err => .error err
      | .ok result => .ok (some result) := by
  have h := Get_Put_self s (⟨"role/" ++ roleName, b⟩ : StorageEntry K.Bytes)
  simp only at h
  simp [nonLockedOCIRole, hn, h]

theorem role_key_ne (a b : String) (hab : a ≠ b) : "role/" ++ b ≠ "role/" ++ a := by
  intro h
  apply hab
  have h2 := congrArg String.data h
  simp only [String.data_append, List.append_cancel_left_eq] at h2
  exact (String.ext h2).symm

theorem config_key_ne (a : String) : "config" ≠ "role/" ++ a := by
  intro h
  have h2 := congrArg String.data h
  simp only [String.data_append] at h2
  have h3 := congrArg List.head? h2
  simp at h3

theorem nonLockedOCIRole_congr (K : Sdk) (s1 s2 : Storage K.Bytes) (roleName : String)
    (h : Storage.Get s1 ("role/" ++ roleName) = Storage.Get s2 ("role/" ++ roleName)) :
    nonLockedOCIRole K s1 roleName = nonLockedOCIRole K s2 roleName := by
  simp [nonLockedOCIRole, h]

theorem convertNilToEmptySlice_eq (l : List String) : convertNilToEmptySlice l = l := by
  cases l <;> simp [convertNilToEmptySlice]

theorem pathRoleRead_of_role_some (K : Sdk) (data : RoleFieldData K.TokenFields)
    (s : Storage K.Bytes) (e : OCIRoleEntry K.TokenParams)
    (h : nonLockedOCIRole K s data.role = .ok (some e)) :
    pathRoleRead K data s =
      (⟨some (.roleData ⟨e.Role, e.OcidList, K.PopulateTokenData e.TokenParams⟩), none⟩, s) := by
  have hn := nonLockedOCIRole_name_ne K s data.role _ h
  simp [pathRoleRead, lockedOCIRole, hn, h, convertNilToEmptySlice_eq]

theorem pathRoleCreateUpdate_create_fresh (K : Sdk) (data : RoleFieldData K.TokenFields)
    (s : Storage K.Bytes) (l : List String) (tp : K.TokenParams) (b : K.Bytes)
    (hn : data.role ≠ "") (hg : Storage.Get s ("role/" ++ data.role) = .ok none)
    (hl : data.ocid_list = some l) (hlen : l.length ≤ MaxOCIDsPerRole)
    (hp : K.ParseTokenFields .CreateOperation data.token K.zeroTokenParams = .ok tp)
    (he : K.encodeRole ⟨tp, data.role, l⟩ = .ok b) :
    pathRoleCreateUpdate K .CreateOperation data s =
      (⟨some .empty, none⟩, (Storage.Put s ⟨"role/" ++ data.role, b⟩).2) := by
  have hr := nonLockedOCIRole_of_Get_none K s data.role hn hg
  have hnot : ¬ MaxOCIDsPerRole < l.length := Nat.not_lt.2 hlen
  rw [pathRoleCreateUpdate_from K .CreateOperation data s none
    ⟨K.zeroTokenParams, data.role, []⟩ hr (Or.inr ⟨rfl, rfl, rfl⟩)]
  simp only [hl, Option.isSome_some, Option.getD_some, true_and, gt_iff_lt, hnot, if_false, hp,
    nonLockedSetOCIRole_eq K s data.role _ hn, he]

theorem refSdk_RoleJSONRoundTrip : RoleJSONRoundTrip refSdk := by
  intro r b h
  have h2 : RefBytes.role r = b := by
    simpa using h
  subst h2
  rfl

theorem refSdk_RoleJSONEncodes : RoleJSONEncodes refSdk :=
  fun r => ⟨RefBytes.role r, rfl⟩

/-- C6, the failing input: an Update of a role that is not stored, with 101
OCIDs, is answered "The specified role does not exist", not with the limit
error. -/
theorem pathRoleCreateUpdate_limit_not_first :
    MaxOCIDsPerRole < (List.replicate 101 "ocid1.group.oc1..g").length ∧
      (pathRoleCreateUpdate refSdk .UpdateOperation
          (roleRequest "devrole" (some (List.replicate 101 "ocid1.group.oc1..g"))) []).1 =
        ⟨some (.ErrorResponse "The specified role does not exist"), none⟩ ∧
      (pathRoleCreateUpdate refSdk .UpdateOperation
          (roleRequest "devrole" (some (List.replicate 101 "ocid1.group.oc1..g"))) []).1 ≠
        ⟨some (.ErrorResponse "Number of OCIDs for this role exceeds the limit"), none⟩ := by
  refine ⟨by decide, by decide, by decide⟩

/-- C6, amended: a request whose ocid_list has more than 100 entries never
changes the storage; when the role name is not empty and the role is stored, or
is not stored and the operation is Create, the answer is the error response
"Number of OCIDs for this role exceeds the limit"; a list of at most 100
entries is never answered with that error. -/
theorem pathRoleCreateUpdate_ocid_limit (K : Sdk) (op : Operation)
    (data : RoleFieldData K.TokenFields) (s : Storage K.Bytes) (l : List String)
    (hl : data.ocid_list = some l) :
    (MaxOCIDsPerRole < l.length → (pathRoleCreateUpdate K op data s).2 = s) ∧
      (MaxOCIDsPerRole < l.length → data.role ≠ "" →
        ∀ e, nonLockedOCIRole K s data.role = .ok e → (e.isSome ∨ op = .CreateOperation) →
          (pathRoleCreateUpdate K op data s).1 =
            ⟨some (.ErrorResponse "Number of OCIDs for this role exceeds the limit"), none⟩) ∧
      (l.length ≤ MaxOCIDsPerRole →
        (pathRoleCreateUpdate K op data s).1 ≠
          ⟨some (.ErrorResponse "Number of OCIDs for this role exceeds the limit"), none⟩) := by
  have hstart : ∀ found, nonLockedOCIRole K s data.role = .ok found →
      (found.isSome ∨ op = .CreateOperation) →
      ∃ e0 : OCIRoleEntry K.TokenParams, found = some e0 ∨
        (found = none ∧ op = .CreateOperation ∧ e0 = ⟨K.zeroTokenParams, data.role, []⟩) := by
    intro found _ hor
    cases found with
    | none => exact ⟨⟨K.zeroTokenParams, data.role, []⟩, Or.inr ⟨rfl, by simpa using hor, rfl⟩⟩
    | some e0 => exact ⟨e0, Or.inl rfl⟩
  refine ⟨?_, ?_, ?_⟩
  · intro hlen
    cases hr : nonLockedOCIRole K s data.role with
    | error err => rw [pathRoleCreateUpdate_lookup_error K op data s err hr]
    | ok found =>
      by_cases hor : found.isSome ∨ op = .CreateOperation
      · obtain ⟨e0, h0⟩ := hstart found hr hor
        rw [pathRoleCreateUpdate_from K op data s found e0 hr h0]
        simp [hl, hlen]
      · have hnone : found = none := by
          cases found with
          | none => rfl
          | some e => exact absurd (Or.inl rfl) hor
        subst hnone
        rw [pathRoleCreateUpdate_absent K op data s hr (fun h => hor (Or.inr h))]
  · intro hlen _ found hr hor
    obtain ⟨e0, h0⟩ := hstart found hr hor
    rw [pathRoleCreateUpdate_from K op data s found e0 hr h0]
    simp [hl, hlen]
  · intro hlen
    have hnot : ¬ MaxOCIDsPerRole < l.length := Nat.not_lt.2 hlen
    cases hr : nonLockedOCIRole K s data.role with
    | error err =>
      rw [pathRoleCreateUpdate_lookup_error K op data s err hr]
      simp
    | ok found =>
      by_cases hor : found.isSome ∨ op = .CreateOperation
      · obtain ⟨e0, h0⟩ := hstart found hr hor
        rw [pathRoleCreateUpdate_from K op data s found e0 hr h0]
        simp only [hl, Option.isSome_some, Option.getD_some, true_and, gt_iff_lt, hnot, if_false]
        cases hp : K.ParseTokenFields op data.token e0.TokenParams with
        | error err => simp
        | ok tp =>
          simp only
          split <;> simp
      · have hnone : found = none := by
          cases found with
          | none => rfl
          | some e => exact absurd (Or.inl rfl) hor
        subst hnone
        rw [pathRoleCreateUpdate_absent K op data s hr (fun h => hor (Or.inr h))]
        simp

theorem pathRoleCreateUpdate_ocid_limit_witness :
    MaxOCIDsPerRole < (List.replicate 101 "ocid1.group.oc1..g").length ∧
      (pathRoleCreateUpdate refSdk .CreateOperation
          (roleRequest "devrole" (some (List.replicate 101 "ocid1.group.oc1..g"))) []).1 =
        ⟨some (.ErrorResponse "Number of OCIDs for this role exceeds the limit"), none⟩ ∧
      (pathRoleCreateUpdate refSdk .CreateOperation
          (roleRequest "devrole" (some (List.replicate 101 "ocid1.group.oc1..g"))) []).2 = [] ∧
      (pathRoleCreateUpdate refSdk .CreateOperation
          (roleRequest "devrole" (some (List.replicate 100 "ocid1.group.oc1..g"))) []).1 ≠
        ⟨some (.ErrorResponse "Number of OCIDs for this role exceeds the limit"), none⟩ :=
  ⟨by decide,
    (pathRoleCreateUpdate_ocid_limit refSdk .CreateOperation
      (roleRequest "devrole" (some (List.replicate 101 "ocid1.group.oc1..g"))) []
      (List.replicate 101 "ocid1.group.oc1..g") rfl).2.1 (by decide) (by decide) none rfl
      (Or.inr rfl),
    (pathRoleCreateUpdate_ocid_limit refSdk .CreateOperation
      (roleRequest "devrole" (some (List.replicate 101 "ocid1.group.oc1..g"))) []
      (List.replicate 101 "ocid1.group.oc1..g") rfl).1 (by decide),
    (pathRoleCreateUpdate_ocid_limit refSdk .CreateOperation
      (roleRequest "devrole" (some (List.replicate 100 "ocid1.group.oc1..g"))) []
      (List.replicate 100 "ocid1.group.oc1..g") rfl).2.2 (by decide)⟩

/-- C7: for a non-empty role name with no stored entry, pathRoleCreateUpdate
with an operation other than Create answers with the error response "The
specified role does not exist", leaves the storage unchanged, and the role is
still absent afterwards. -/
theorem pathRoleCreateUpdate_update_missing (K : Sdk) (op : Operation)
    (data : RoleFieldData K.TokenFields) (s : Storage K.Bytes)
    (hn : data.role ≠ "") (hg : Storage.Get s ("role/" ++ data.role) = .ok none)
    (hop : op ≠ .CreateOperation) :
    pathRoleCreateUpdate K op data s =
        (⟨some (.ErrorResponse "The specified role does not exist"), none⟩, s) ∧
      nonLockedOCIRole K (pathRoleCreateUpdate K op data s).2 data.role = .ok none ∧
      (pathRoleRead K data (pathRoleCreateUpdate K op data s).2).1 = ⟨none, none⟩ := by
  have hr := nonLockedOCIRole_of_Get_none K s data.role hn hg
  have h := pathRoleCreateUpdate_absent K op data s hr hop
  refine ⟨h, ?_, ?_⟩
  · rw [h]
    exact hr
  · rw [h, pathRoleRead_of_role_none K data s hn hr]

theorem pathRoleCreateUpdate_update_missing_witness :
    "nonrole" ≠ "" ∧ Storage.Get (configStore "ocid1.tenancy.oc1..dummy") "role/nonrole" = .ok none ∧
      Operation.UpdateOperation ≠ Operation.CreateOperation ∧
      pathRoleCreateUpdate refSdk .UpdateOperation
          (roleRequest "nonrole" (some ["ocid1.group.oc1..g"]))
          (configStore "ocid1.tenancy.oc1..dummy") =
        (⟨some (.ErrorResponse "The specified role does not exist"), none⟩,
          configStore "ocid1.tenancy.oc1..dummy") :=
  ⟨by decide, rfl, by decide,
    (pathRoleCreateUpdate_update_missing refSdk .UpdateOperation
      (roleRequest "nonrole" (some ["ocid1.group.oc1..g"]))
      (configStore "ocid1.tenancy.oc1..dummy") (by decide) rfl (by decide)).1⟩

/-- C8: with a JSON codec that round-trips role entries, after a successful
pathRoleCreateUpdate: when the request gives ocid_list, the list has at most 100
entries and the stored role has exactly that list as OcidList; when the request
omits ocid_list and the role was stored before, the stored OcidList and Role
are the ones stored before the call. -/
theorem pathRoleCreateUpdate_stores_ocid_list (K : Sdk) (hJ : RoleJSONRoundTrip K)
    (op : Operation) (data : RoleFieldData K.TokenFields) (s : Storage K.Bytes)
    (hs : (pathRoleCreateUpdate K op data s).1 = ⟨some .empty, none⟩) :
    (∀ l, data.ocid_list = some l →
        l.length ≤ MaxOCIDsPerRole ∧
        ∃ e, nonLockedOCIRole K (pathRoleCreateUpdate K op data s).2 data.role = .ok (some e) ∧
          e.OcidList = l) ∧
      (∀ e0, data.ocid_list = none → nonLockedOCIRole K s data.role = .ok (some e0) →
        ∃ e, nonLockedOCIRole K (pathRoleCreateUpdate K op data s).2 data.role = .ok (some e) ∧
          e.OcidList = e0.OcidList ∧ e.Role = e0.Role) := by
  rcases pathRoleCreateUpdate_cases K op data s with ⟨_, hne⟩ | ⟨found, e1, tp, b, hn, hr, h0, hlim, _, he, heq⟩
  · exact absurd hs hne
  · have hread : nonLockedOCIRole K (pathRoleCreateUpdate K op data s).2 data.role =
        .ok (some ⟨tp, e1.Role, data.ocid_list.getD e1.OcidList⟩) := by
      rw [heq, nonLockedOCIRole_Put K s data.role b hn, hJ _ b he]
    constructor
    · intro l hl
      refine ⟨hlim l hl, _, hread, ?_⟩
      simp [hl]
    · intro e0 hl hr0
      refine ⟨_, hread, ?_, ?_⟩
      · rw [hr] at hr0
        rcases h0 with h0 | ⟨h0, _, _⟩
        · rw [h0] at hr0
          simp only [Except.ok.injEq, Option.some.injEq] at hr0
          simp [hl, hr0]
        · rw [h0] at hr0
          simp at hr0
      · rw [hr] at hr0
        rcases h0 with h0 | ⟨h0, _, _⟩
        · rw [h0] at hr0
          simp only [Except.ok.injEq, Option.some.injEq] at hr0
          simp [hr0]
        · rw [h0] at hr0
          simp at hr0

theorem pathRoleCreateUpdate_stores_ocid_list_witness :
    RoleJSONRoundTrip refSdk ∧
      (pathRoleCreateUpdate refSdk .UpdateOperation (roleRequest "devrole" (some ["g2", "g2", "g3"]))
        [⟨"role/devrole", RefBytes.role ⟨⟨["policy1"], 1500⟩, "devrole", ["g1"]⟩⟩]).1 =
        ⟨some .empty, none⟩ ∧
      (∃ e, nonLockedOCIRole refSdk
          (pathRoleCreateUpdate refSdk .UpdateOperation
            (roleRequest "devrole" (some ["g2", "g2", "g3"]))
            [⟨"role/devrole", RefBytes.role ⟨⟨["policy1"], 1500⟩, "devrole", ["g1"]⟩⟩]).2
          "devrole" = .ok (some e) ∧ e.OcidList = ["g2", "g2", "g3"]) ∧
      (∃ e, nonLockedOCIRole refSdk
          (pathRoleCreateUpdate refSdk .UpdateOperation (roleRequest "devrole" none)
            [⟨"role/devrole", RefBytes.role ⟨⟨["policy1"], 1500⟩, "devrole", ["g1"]⟩⟩]).2
          "devrole" = .ok (some e) ∧ e.OcidList = ["g1"] ∧ e.Role = "devrole") :=
  ⟨refSdk_RoleJSONRoundTrip, by decide,
    ((pathRoleCreateUpdate_stores_ocid_list refSdk refSdk_RoleJSONRoundTrip .UpdateOperation
      (roleRequest "devrole" (some ["g2", "g2", "g3"]))
      [⟨"role/devrole", RefBytes.role ⟨⟨["policy1"], 1500⟩, "devrole", ["g1"]⟩⟩]
      (by decide)).1 ["g2", "g2", "g3"] rfl).2,
    (pathRoleCreateUpdate_stores_ocid_list refSdk refSdk_RoleJSONRoundTrip .UpdateOperation
      (roleRequest "devrole" none)
      [⟨"role/devrole", RefBytes.role ⟨⟨["policy1"], 1500⟩, "devrole", ["g1"]⟩⟩]
      (by decide)).2 ⟨⟨["policy1"], 1500⟩, "devrole", ["g1"]⟩ rfl rfl⟩

/-- C9: for distinct role names a and b, pathRoleCreateUpdate and
pathRoleDelete on a leave the entry stored under "role/b" and the entry stored
under "config" unchanged; hence, with a JSON codec that encodes and round-trips
role entries, creating role a and then role b (both non-empty names, not stored
before, at most 100 OCIDs, token fields accepted) succeeds for both, and a read
of each afterwards returns its own name, OCID list and token data. -/
theorem role_writes_independent (K : Sdk) (op : Operation)
    (data : RoleFieldData K.TokenFields) (s : Storage K.Bytes) (b : String)
    (hab : data.role ≠ b) :
    (Storage.Get (pathRoleCreateUpdate K op data s).2 ("role/" ++ b) =
          Storage.Get s ("role/" ++ b) ∧
        Storage.Get (pathRoleCreateUpdate K op data s).2 "config" = Storage.Get s "config") ∧
      (Storage.Get (pathRoleDelete K data s).2 ("role/" ++ b) = Storage.Get s ("role/" ++ b) ∧
        Storage.Get (pathRoleDelete K data s).2 "config" = Storage.Get s "config") ∧
      (∀ (dataB : RoleFieldData K.TokenFields) (la lb : List String) (tpa tpb : K.TokenParams),
        RoleJSONRoundTrip K → RoleJSONEncodes K →
        data.role ≠ "" → b ≠ "" → dataB.role = b →
        Storage.Get s ("role/" ++ data.role) = .ok none →
        Storage.Get s ("role/" ++ b) = .ok none →
        data.ocid_list = some la → dataB.ocid_list = some lb →
        la.length ≤ MaxOCIDsPerRole → lb.length ≤ MaxOCIDsPerRole →
        K.ParseTokenFields .CreateOperation data.token K.zeroTokenParams = .ok tpa →
        K.ParseTokenFields .CreateOperation dataB.token K.zeroTokenParams = .ok tpb →
        (pathRoleCreateUpdate K .CreateOperation data s).1 = ⟨some .empty, none⟩ ∧
        (pathRoleCreateUpdate K .CreateOperation dataB
          (pathRoleCreateUpdate K .CreateOperation data s).2).1 = ⟨some .empty, none⟩ ∧
        (pathRoleRead K data
          (pathRoleCreateUpdate K .CreateOperation dataB
            (pathRoleCreateUpdate K .CreateOperation data s).2).2).1 =
          ⟨some (.roleData ⟨data.role, la, K.PopulateTokenData tpa⟩), none⟩ ∧
        (pathRoleRead K dataB
          (pathRoleCreateUpdate K .CreateOperation dataB
            (pathRoleCreateUpdate K .CreateOperation data s).2).2).1 =
          ⟨some (.roleData ⟨b, lb, K.PopulateTokenData tpb⟩), none⟩) := by
  have hkey : "role/" ++ b ≠ "role/" ++ data.role := role_key_ne data.role b hab
  have hcfg : "config" ≠ "role/" ++ data.role := config_key_ne data.role
  refine ⟨?_, ?_, ?_⟩
  · rcases pathRoleCreateUpdate_cases K op data s with ⟨h, _⟩ |
      ⟨_, _, _, bytes, _, _, _, _, _, _, heq⟩
    · rw [h]
      exact ⟨rfl, rfl⟩
    · rw [heq]
      exact ⟨Get_Put_ne s ⟨"role/" ++ data.role, bytes⟩ _ hkey,
        Get_Put_ne s ⟨"role/" ++ data.role, bytes⟩ _ hcfg⟩
  · exact ⟨Get_Delete_ne s ("role/" ++ data.role) _ hkey,
      Get_Delete_ne s ("role/" ++ data.role) _ hcfg⟩
  · intro dataB la lb tpa tpb hJ hE hna hnb hB hga hgb hla hlb hlena hlenb hpa hpb
    subst hB
    obtain ⟨ba, hea⟩ := hE ⟨tpa, data.role, la⟩
    obtain ⟨bb, heb⟩ := hE ⟨tpb, dataB.role, lb⟩
    have h1 := pathRoleCreateUpdate_create_fresh K data s la tpa ba hna hga hla hlena hpa hea
    have hgb1 : Storage.Get (Storage.Put s ⟨"role/" ++ data.role, ba⟩).2
        ("role/" ++ dataB.role) = .ok none := by
      rw [Get_Put_ne s ⟨"role/" ++ data.role, ba⟩ _ hkey]
      exact hgb
    have h2 := pathRoleCreateUpdate_create_fresh K dataB _ lb tpb bb hnb hgb1 hlb hlenb hpb heb
    have hkey2 : "role/" ++ data.role ≠ "role/" ++ dataB.role :=
      role_key_ne dataB.role data.role (fun h => hab h.symm)
    have hra : nonLockedOCIRole K
        (Storage.Put (Storage.Put s ⟨"role/" ++ data.role, ba⟩).2
          ⟨"role/" ++ dataB.role, bb⟩).2 data.role = .ok (some ⟨tpa, data.role, la⟩) := by
      rw [nonLockedOCIRole_congr K _ (Storage.Put s ⟨"role/" ++ data.role, ba⟩).2 data.role
        (Get_Put_ne _ ⟨"role/" ++ dataB.role, bb⟩ _ hkey2),
        nonLockedOCIRole_Put K s data.role ba hna, hJ _ ba hea]
    have hrb : nonLockedOCIRole K
        (Storage.Put (Storage.Put s ⟨"role/" ++ data.role, ba⟩).2
          ⟨"role/" ++ dataB.role, bb⟩).2 dataB.role = .ok (some ⟨tpb, dataB.role, lb⟩) := by
      rw [nonLockedOCIRole_Put K _ dataB.role bb hnb, hJ _ bb heb]
    rw [h1, h2]
    refine ⟨rfl, rfl, ?_, ?_⟩
    · rw [pathRoleRead_of_role_some K data _ _ hra]
    · rw [pathRoleRead_of_role_some K dataB _ _ hrb]

theorem role_writes_independent_witness :
    "devrole" ≠ "kwrole" ∧
      (pathRoleRead refSdk (roleRequest "devrole" none)
        (pathRoleCreateUpdate refSdk .CreateOperation
          ⟨"kwrole", some ["g1", "g3"], (⟨some ["policy1", "policy5"], some 1000⟩ : RefTokenFields)⟩
          (pathRoleCreateUpdate refSdk .CreateOperation
            ⟨"devrole", some ["g1", "g2"], (⟨some ["policy1", "policy2"], some 1500⟩ : RefTokenFields)⟩
            (configStore "ocid1.tenancy.oc1..dummy")).2).2).1 =
        ⟨some (.roleData ⟨"devrole", ["g1", "g2"], ⟨["policy1", "policy2"], 1500⟩⟩), none⟩ ∧
      (pathRoleRead refSdk (roleRequest "kwrole" none)
        (pathRoleCreateUpdate refSdk .CreateOperation
          ⟨"kwrole", some ["g1", "g3"], (⟨some ["policy1", "policy5"], some 1000⟩ : RefTokenFields)⟩
          (pathRoleCreateUpdate refSdk .CreateOperation
            ⟨"devrole", some ["g1", "g2"], (⟨some ["policy1", "policy2"], some 1500⟩ : RefTokenFields)⟩
            (configStore "ocid1.tenancy.oc1..dummy")).2).2).1 =
        ⟨some (.roleData ⟨"kwrole", ["g1", "g3"], ⟨["policy1", "policy5"], 1000⟩⟩), none⟩ :=
  ⟨by decide,
    ((role_writes_independent refSdk .CreateOperation
      ⟨"devrole", some ["g1", "g2"], (⟨some ["policy1", "policy2"], some 1500⟩ : RefTokenFields)⟩
      (configStore "ocid1.tenancy.oc1..dummy") "kwrole" (by decide)).2.2
      ⟨"kwrole", some ["g1", "g3"], (⟨some ["policy1", "policy5"], some 1000⟩ : RefTokenFields)⟩
      ["g1", "g2"] ["g1", "g3"] ⟨["policy1", "policy2"], 1500⟩ ⟨["policy1", "policy5"], 1000⟩
      refSdk_RoleJSONRoundTrip refSdk_RoleJSONEncodes (by decide) (by decide) rfl rfl rfl rfl rfl
      (by decide) (by decide) rfl rfl).2.2.1,
    ((role_writes_independent refSdk .CreateOperation
      ⟨"devrole", some ["g1", "g2"], (⟨some ["policy1", "policy2"], some 1500⟩ : RefTokenFields)⟩
      (configStore "ocid1.tenancy.oc1..dummy") "kwrole" (by decide)).2.2
      ⟨"kwrole", some ["g1", "g3"], (⟨some ["policy1", "policy5"], some 1000⟩ : RefTokenFields)⟩
      ["g1", "g2"] ["g1", "g3"] ⟨["policy1", "policy2"], 1500⟩ ⟨["policy1", "policy5"], 1000⟩
      refSdk_RoleJSONRoundTrip refSdk_RoleJSONEncodes (by decide) (by decide) rfl rfl rfl rfl rfl
      (by decide) (by decide) rfl rfl).2.2.2⟩

/-- C10, the failing input: after pathRoleDelete of the empty role name, a read
of that name returns the error "missing role name", not absent. -/
theorem pathRoleDelete_empty_name_read :
    (pathRoleRead refSdk (roleRequest "" none)
        (pathRoleDelete refSdk (roleRequest "" none) []).2).1 =
        ⟨none, some "missing role name"⟩ ∧
      (pathRoleRead refSdk (roleRequest "" none)
        (pathRoleDelete refSdk (roleRequest "" none) []).2).1 ≠ ⟨none, none⟩ := by
  refine ⟨by decide, by decide⟩

/-- C10, amended: pathRoleDelete never fails; for every non-empty role name a
read of that role after pathRoleDelete returns absent; deleting a role that is
not stored leaves the storage unchanged. -/
theorem pathRoleDelete_idempotent (K : Sdk) (data : RoleFieldData K.TokenFields)
    (s : Storage K.Bytes) :
    (pathRoleDelete K data s).1 = ⟨none, none⟩ ∧
      (data.role ≠ "" →
        (pathRoleRead K data (pathRoleDelete K data s).2).1 = ⟨none, none⟩) ∧
      (Storage.Get s ("role/" ++ data.role) = .ok none →
        pathRoleDelete K data s = (⟨none, none⟩, s)) ∧
      pathRoleDelete K data (pathRoleDelete K data s).2 = pathRoleDelete K data s := by
  have hg : Storage.Get (pathRoleDelete K data s).2 ("role/" ++ data.role) = .ok none :=
    Get_Delete_self s ("role/" ++ data.role)
  have hn : ∀ s1 : Storage K.Bytes, Storage.Get s1 ("role/" ++ data.role) = .ok none →
      pathRoleDelete K data s1 = (⟨none, none⟩, s1) := by
    intro s1 h1
    have h2 := Delete_of_Get_none s1 ("role/" ++ data.role) h1
    simp [pathRoleDelete, h2]
  refine ⟨rfl, ?_, hn s, ?_⟩
  · intro hne
    rw [pathRoleRead_of_role_none K data _ hne (nonLockedOCIRole_of_Get_none K _ _ hne hg)]
  · rw [hn _ hg]
    rfl

theorem pathRoleDelete_idempotent_witness :
    "devrole" ≠ "" ∧
      (pathRoleRead refSdk (roleRequest "devrole" none)
        (pathRoleDelete refSdk (roleRequest "devrole" none)
          [⟨"role/devrole", RefBytes.role ⟨⟨["policy1"], 1500⟩, "devrole", ["g1"]⟩⟩]).2).1 =
        ⟨none, none⟩ ∧
      Storage.Get (configStore "ocid1.tenancy.oc1..dummy") "role/devrole" = .ok none ∧
      pathRoleDelete refSdk (roleRequest "devrole" none) (configStore "ocid1.tenancy.oc1..dummy") =
        (⟨none, none⟩, configStore "ocid1.tenancy.oc1..dummy") :=
  ⟨by decide,
    (pathRoleDelete_idempotent refSdk (roleRequest "devrole" none)
      [⟨"role/devrole", RefBytes.role ⟨⟨["policy1"], 1500⟩, "devrole", ["g1"]⟩⟩]).2.1
      (by decide),
    rfl,
    (pathRoleDelete_idempotent refSdk (roleRequest "devrole" none)
      (configStore "ocid1.tenancy.oc1..dummy")).2.2.1 rfl⟩

theorem nonLockedOCIRole_none_iff (K : Sdk) (s : Storage K.Bytes) (roleName : String)
    (hn : roleName ≠ "") :
    nonLockedOCIRole K s roleName = .ok none ↔
      Storage.Get s ("role/" ++ roleName) = .ok none := by
  constructor
  · intro h
    simp only [nonLockedOCIRole, hn, if_false] at h
    cases hg : Storage.Get s ("role/" ++ roleName) with
    | error e => simp [Storage.Get] at hg
    | ok o =>
      cases o with
      | none => rfl
      | some entry =>
        rw [hg] at h
        cases hd : K.decodeRole entry.Value <;> simp [hd] at h
  · exact nonLockedOCIRole_of_Get_none K s roleName hn

theorem lockedOCIRole_eq (K : Sdk) (s : Storage K.Bytes) (roleName : String) :
    lockedOCIRole K s roleName = nonLockedOCIRole K s roleName := by
  by_cases hn : roleName = ""
  · simp [lockedOCIRole, nonLockedOCIRole, hn]
  · simp only [lockedOCIRole, hn, if_false]
    cases h : nonLockedOCIRole K s roleName with
    | error e => rfl
    | ok o => cases o <;> rfl

/-- C11: for the empty role name lockedOCIRole and nonLockedOCIRole return the
error "missing role name" whatever the storage holds; for a non-empty name they
return absent (no entry, no error) exactly when nothing is stored under
"role/<name>". -/
theorem role_lookup_empty_name_and_absent (K : Sdk) :
    (∀ s : Storage K.Bytes,
        lockedOCIRole K s "" = .error "missing role name" ∧
        nonLockedOCIRole K s "" = .error "missing role name") ∧
      (∀ (s : Storage K.Bytes) (roleName : String), roleName ≠ "" →
        (nonLockedOCIRole K s roleName = .ok none ↔
          Storage.Get s ("role/" ++ roleName) = .ok none) ∧
        (lockedOCIRole K s roleName = .ok none ↔
          Storage.Get s ("role/" ++ roleName) = .ok none)) := by
  constructor
  · intro s
    exact ⟨by simp [lockedOCIRole], by simp [nonLockedOCIRole]⟩
  · intro s roleName hn
    refine ⟨nonLockedOCIRole_none_iff K s roleName hn, ?_⟩
    rw [lockedOCIRole_eq]
    exact nonLockedOCIRole_none_iff K s roleName hn

theorem role_lookup_empty_name_and_absent_witness :
    "nonrole" ≠ "" ∧
      Storage.Get (configStore "ocid1.tenancy.oc1..dummy") "role/nonrole" = .ok none ∧
      lockedOCIRole refSdk (configStore "ocid1.tenancy.oc1..dummy") "nonrole" = .ok none :=
  ⟨by decide, rfl,
    (((role_lookup_empty_name_and_absent refSdk).2
      (configStore "ocid1.tenancy.oc1..dummy") "nonrole" (by decide)).2).2 rfl⟩

theorem refSdk_ParseTokenFieldsIgnoresOperation : ParseTokenFieldsIgnoresOperation refSdk :=
  fun _ _ => rfl

theorem pathRoleCreateUpdate_success_stored (K : Sdk) (hJ : RoleJSONRoundTrip K)
    (op : Operation) (data : RoleFieldData K.TokenFields) (s : Storage K.Bytes)
    (e0 : OCIRoleEntry K.TokenParams)
    (hr : nonLockedOCIRole K s data.role = .ok (some e0))
    (hs : (pathRoleCreateUpdate K op data s).1 = ⟨some .empty, none⟩) :
    ∃ tp, nonLockedOCIRole K (pathRoleCreateUpdate K op data s).2 data.role =
      .ok (some ⟨tp, e0.Role, data.ocid_list.getD e0.OcidList⟩) := by
  rcases pathRoleCreateUpdate_cases K op data s with ⟨_, hne⟩ |
    ⟨found, e1, tp, b, hn, hr1, h0, _, _, he, heq⟩
  · exact absurd hs hne
  · have he1 : e1 = e0 := by
      rw [hr] at hr1
      rcases h0 with h0 | ⟨h0, _, _⟩
      · rw [h0] at hr1
        simp only [Except.ok.injEq, Option.some.injEq] at hr1
        exact hr1.symm
      · rw [h0] at hr1
        simp at hr1
    subst he1
    exact ⟨tp, by rw [heq, nonLockedOCIRole_Put K s data.role b hn, hJ _ b he]⟩

/-- C17: when the role already has a stored entry and ParseTokenFields treats
Create and Update requests alike, pathRoleCreateUpdate gives the same response
and the same storage for the operations Create and Update; a successful Create
that omits ocid_list keeps the stored OcidList (with a JSON codec that
round-trips role entries). -/
theorem pathRoleCreateUpdate_create_on_existing (K : Sdk)
    (hP : ParseTokenFieldsIgnoresOperation K) (data : RoleFieldData K.TokenFields)
    (s : Storage K.Bytes) (e0 : OCIRoleEntry K.TokenParams)
    (hr : nonLockedOCIRole K s data.role = .ok (some e0)) :
    pathRoleCreateUpdate K .CreateOperation data s =
        pathRoleCreateUpdate K .UpdateOperation data s ∧
      (RoleJSONRoundTrip K → data.ocid_list = none →
        (pathRoleCreateUpdate K .CreateOperation data s).1 = ⟨some .empty, none⟩ →
        ∃ e, nonLockedOCIRole K (pathRoleCreateUpdate K .CreateOperation data s).2 data.role =
            .ok (some e) ∧ e.OcidList = e0.OcidList ∧ e.Role = e0.Role) := by
  constructor
  · rw [pathRoleCreateUpdate_from K .CreateOperation data s (some e0) e0 hr (Or.inl rfl),
      pathRoleCreateUpdate_from K .UpdateOperation data s (some e0) e0 hr (Or.inl rfl),
      hP data.token e0.TokenParams]
  · intro hJ hl hs
    obtain ⟨tp, h⟩ := pathRoleCreateUpdate_success_stored K hJ .CreateOperation data s e0 hr hs
    exact ⟨_, h, by simp [hl], rfl⟩

theorem pathRoleCreateUpdate_create_on_existing_witness :
    ParseTokenFieldsIgnoresOperation refSdk ∧
      nonLockedOCIRole refSdk
        [⟨"role/devrole", RefBytes.role ⟨⟨["policy1"], 1500⟩, "devrole", ["g1", "g2"]⟩⟩]
        "devrole" = .ok (some ⟨⟨["policy1"], 1500⟩, "devrole", ["g1", "g2"]⟩) ∧
      pathRoleCreateUpdate refSdk .CreateOperation (roleRequest "devrole" none)
          [⟨"role/devrole", RefBytes.role ⟨⟨["policy1"], 1500⟩, "devrole", ["g1", "g2"]⟩⟩] =
        pathRoleCreateUpdate refSdk .UpdateOperation (roleRequest "devrole" none)
          [⟨"role/devrole", RefBytes.role ⟨⟨["policy1"], 1500⟩, "devrole", ["g1", "g2"]⟩⟩] ∧
      (∃ e, nonLockedOCIRole refSdk
          (pathRoleCreateUpdate refSdk .CreateOperation (roleRequest "devrole" none)
            [⟨"role/devrole",
              RefBytes.role ⟨⟨["policy1"], 1500⟩, "devrole", ["g1", "g2"]⟩⟩]).2 "devrole" =
            .ok (some e) ∧ e.OcidList = ["g1", "g2"] ∧ e.Role = "devrole") :=
  ⟨refSdk_ParseTokenFieldsIgnoresOperation, rfl,
    (pathRoleCreateUpdate_create_on_existing refSdk refSdk_ParseTokenFieldsIgnoresOperation
      (roleRequest "devrole" none)
      [⟨"role/devrole", RefBytes.role ⟨⟨["policy1"], 1500⟩, "devrole", ["g1", "g2"]⟩⟩]
      ⟨⟨["policy1"], 1500⟩, "devrole", ["g1", "g2"]⟩ rfl).1,
    (pathRoleCreateUpdate_create_on_existing refSdk refSdk_ParseTokenFieldsIgnoresOperation
      (roleRequest "devrole" none)
      [⟨"role/devrole", RefBytes.role ⟨⟨["policy1"], 1500⟩, "devrole", ["g1", "g2"]⟩⟩]
      ⟨⟨["policy1"], 1500⟩, "devrole", ["g1", "g2"]⟩ rfl).2
      refSdk_RoleJSONRoundTrip rfl (by decide)⟩

/-! ## The store invariant -/

theorem Get_some_mem {B : Type} (s : Storage B) (k : String) (e : StorageEntry B)
    (h : Storage.Get s k = .ok (some e)) : e ∈ s ∧ e.Key = k := by
  simp only [Storage.Get, Except.ok.injEq] at h
  refine ⟨List.mem_of_find?_eq_some h, ?_⟩
  have h2 := List.find?_some h
  simpa using h2

theorem StoreInvariant_Delete (K : Sdk) (s : Storage K.Bytes) (k : String)
    (h : StoreInvariant K s) : StoreInvariant K (Storage.Delete s k).2 := by
  intro e he
  exact h e (List.mem_of_mem_filter he)

theorem StoreInvariant_Put (K : Sdk) (s : Storage K.Bytes) (entry : StorageEntry K.Bytes)
    (h : StoreInvariant K s) (hentry : StoreInvariant K [entry]) :
    StoreInvariant K (Storage.Put s entry).2 := by
  intro e he
  simp only [Storage.Put, List.mem_cons] at he
  rcases he with he | he
  · subst he
    exact hentry e (List.mem_singleton.2 rfl)
  · exact h e (List.mem_of_mem_filter he)

theorem nonLockedOCIConfig_some (K : Sdk) (s : Storage K.Bytes) (c : OCIConfigEntry)
    (h : nonLockedOCIConfig K s = .ok (some c)) :
    ∃ e ∈ s, e.Key = "config" ∧ K.decodeConfig e.Value = .ok c := by
  unfold nonLockedOCIConfig at h
  cases hg : Storage.Get s "config" with
  | error err => simp [Storage.Get] at hg
  | ok o =>
    cases o with
    | none => simp [hg] at h
    | some entry =>
      rw [hg] at h
      obtain ⟨hm, hk⟩ := Get_some_mem s "config" entry hg
      cases hd : K.decodeConfig entry.Value with
      | error err => simp [hd] at h
      | ok c1 =>
        simp only [hd, Except.ok.injEq, Option.some.injEq] at h
        exact ⟨entry, hm, hk, by rw [hd, h]⟩

theorem nonLockedOCIRole_some (K : Sdk) (s : Storage K.Bytes) (roleName : String)
    (r : OCIRoleEntry K.TokenParams) (h : nonLockedOCIRole K s roleName = .ok (some r)) :
    ∃ e ∈ s, e.Key = "role/" ++ roleName ∧ K.decodeRole e.Value = .ok r := by
  have hn := nonLockedOCIRole_name_ne K s roleName _ h
  simp only [nonLockedOCIRole, hn, if_false] at h
  cases hg : Storage.Get s ("role/" ++ roleName) with
  | error err => simp [Storage.Get] at hg
  | ok o =>
    cases o with
    | none => simp [hg] at h
    | some entry =>
      rw [hg] at h
      obtain ⟨hm, hk⟩ := Get_some_mem s _ entry hg
      cases hd : K.decodeRole entry.Value with
      | error err => simp [hd] at h
      | ok r1 =>
        simp only [hd, Except.ok.injEq, Option.some.injEq] at h
        exact ⟨entry, hm, hk, by rw [hd, h]⟩

theorem StoreInvariant_config (K : Sdk) (s : Storage K.Bytes) (c : OCIConfigEntry)
    (hinv : StoreInvariant K s) (h : nonLockedOCIConfig K s = .ok (some c)) :
    TrimSpace c.HomeTenancyId ≠ "" := by
  obtain ⟨e, hm, hk, hd⟩ := nonLockedOCIConfig_some K s c h
  rcases hinv e hm with ⟨_, c1, hd1, hc1⟩ | ⟨name, _, hk1, _⟩
  · rw [hd] at hd1
    simp only [Except.ok.injEq] at hd1
    rw [hd1]
    exact hc1
  · rw [hk] at hk1
    exact absurd hk1 (config_key_ne name)

theorem StoreInvariant_role (K : Sdk) (s : Storage K.Bytes) (roleName : String)
    (r : OCIRoleEntry K.TokenParams) (hinv : StoreInvariant K s)
    (h : nonLockedOCIRole K s roleName = .ok (some r)) :
    r.Role = roleName ∧ r.OcidList.length ≤ MaxOCIDsPerRole := by
  obtain ⟨e, hm, hk, hd⟩ := nonLockedOCIRole_some K s roleName r h
  rcases hinv e hm with ⟨hk1, _⟩ | ⟨name, r1, hk1, _, hd1, hrole, hlen⟩
  · rw [hk] at hk1
    exact absurd hk1.symm (config_key_ne roleName)
  · rw [hd] at hd1
    simp only [Except.ok.injEq] at hd1
    subst hd1
    have hname : roleName = name := by
      by_contra hne
      exact role_key_ne name roleName (fun h2 => hne h2.symm) (hk.symm.trans hk1)
    exact ⟨by rw [hrole, hname], hlen⟩

theorem StoreInvariant_configWrite (K : Sdk) (hC : ConfigJSONRoundTrip K)
    (s : Storage K.Bytes) (v : String) (hv : TrimSpace v ≠ "")
    (hinv : StoreInvariant K s) :
    StoreInvariant K (nonLockedSetOCIConfig K s (some ⟨v⟩)).2 := by
  cases he : K.encodeConfig ⟨v⟩ with
  | error err =>
    have h : nonLockedSetOCIConfig K s (some ⟨v⟩) = (some err, s) := by
      simp [nonLockedSetOCIConfig, StorageEntryJSON, he]
    rw [h]
    exact hinv
  | ok b =>
    rw [nonLockedSetOCIConfig_ok K s ⟨v⟩ b he]
    apply StoreInvariant_Put K s _ hinv
    intro e hm
    rw [List.mem_singleton.1 hm]
    exact Or.inl ⟨rfl, ⟨v⟩, hC _ b he, hv⟩

theorem StoreInvariant_pathConfigCreate (K : Sdk) (hC : ConfigJSONRoundTrip K)
    (data : ConfigFieldData) (s : Storage K.Bytes) (hinv : StoreInvariant K s) :
    StoreInvariant K (pathConfigCreate K data s).2 := by
  unfold pathConfigCreate
  by_cases hv : TrimSpace data.homeTenancyId = ""
  · simp only [hv, if_true]
    exact hinv
  · simp only [hv, if_false]
    cases hr : nonLockedOCIConfig K s with
    | error err => exact hinv
    | ok o =>
      cases o with
      | some c => exact hinv
      | none =>
        have h := StoreInvariant_configWrite K hC s data.homeTenancyId hv hinv
        simp only
        split
        · rename_i heq
          rw [heq] at h
          exact h
        · rename_i heq
          rw [heq] at h
          exact h

theorem StoreInvariant_pathConfigUpdate (K : Sdk) (hC : ConfigJSONRoundTrip K)
    (data : ConfigFieldData) (s : Storage K.Bytes) (hinv : StoreInvariant K s) :
    StoreInvariant K (pathConfigUpdate K data s).2 := by
  unfold pathConfigUpdate
  by_cases hv : TrimSpace data.homeTenancyId = ""
  · simp only [hv, if_true]
    exact hinv
  · simp only [hv, if_false]
    cases hr : nonLockedOCIConfig K s with
    | error err => exact hinv
    | ok o =>
      cases o with
      | none => exact hinv
      | some c =>
        have h := StoreInvariant_configWrite K hC s data.homeTenancyId hv hinv
        simp only
        split
        · rename_i heq
          rw [heq] at h
          exact h
        · rename_i heq
          rw [heq] at h
          exact h

theorem StoreInvariant_pathRoleCreateUpdate (K : Sdk) (hR : RoleJSONRoundTrip K)
    (op : Operation) (data : RoleFieldData K.TokenFields) (s : Storage K.Bytes)
    (hinv : StoreInvariant K s) :
    StoreInvariant K (pathRoleCreateUpdate K op data s).2 := by
  rcases pathRoleCreateUpdate_cases K op data s with ⟨h, _⟩ |
    ⟨found, e0, tp, b, hn, hr, h0, hlim, _, he, heq⟩
  · rw [h]
    exact hinv
  · rw [heq]
    apply StoreInvariant_Put K s _ hinv
    intro e hm
    rw [List.mem_singleton.1 hm]
    have h1 : e0.Role = data.role ∧ e0.OcidList.length ≤ MaxOCIDsPerRole := by
      rcases h0 with h0 | ⟨_, _, h0⟩
      · rw [h0] at hr
        exact StoreInvariant_role K s data.role e0 hinv hr
      · rw [h0]
        exact ⟨rfl, by simp [MaxOCIDsPerRole]⟩
    refine Or.inr ⟨data.role, _, rfl, hn, hR _ b he, h1.1, ?_⟩
    cases hl : data.ocid_list with
    | none => simpa using h1.2
    | some l => simpa using hlim l hl

theorem StoreInvariant_handle (K : Sdk) (hC : ConfigJSONRoundTrip K)
    (hR : RoleJSONRoundTrip K) (req : AdminRequest K.TokenFields) (s : Storage K.Bytes)
    (hinv : StoreInvariant K s) : StoreInvariant K (AdminRequest.handle K req s).2 := by
  cases req with
  | configCreate data => exact StoreInvariant_pathConfigCreate K hC data s hinv
  | configUpdate data => exact StoreInvariant_pathConfigUpdate K hC data s hinv
  | configDelete => exact StoreInvariant_Delete K s "config" hinv
  | roleCreateUpdate op data => exact StoreInvariant_pathRoleCreateUpdate K hR op data s hinv
  | roleDelete data => exact StoreInvariant_Delete K s ("role/" ++ data.role) hinv

theorem StoreInvariant_runRequests (K : Sdk) (hC : ConfigJSONRoundTrip K)
    (hR : RoleJSONRoundTrip K) (reqs : List (AdminRequest K.TokenFields))
    (s : Storage K.Bytes) (hinv : StoreInvariant K s) :
    StoreInvariant K (runRequests K reqs s) := by
  induction reqs generalizing s with
  | nil => exact hinv
  | cons req rest ih =>
    exact ih _ (StoreInvariant_handle K hC hR req s hinv)

theorem refSdk_ConfigJSONRoundTrip : ConfigJSONRoundTrip refSdk := by
  intro c b h
  have h2 : RefBytes.config c = b := by
    simpa using h
  subst h2
  rfl

/-- C16: with a JSON codec that round-trips config and role entries, in every
storage reached from the empty store by a sequence of config create, update and
delete requests and role create/update and delete requests, a stored config has
a tenancy id that is not blank, and every other entry is a role stored under
"role/<name>" with a non-empty name, whose Role is that name and whose OcidList
has at most 100 entries; so a role read under a name has that name and at most
100 OCIDs. -/
theorem store_invariant_reachable (K : Sdk) (hC : ConfigJSONRoundTrip K)
    (hR : RoleJSONRoundTrip K) (reqs : List (AdminRequest K.TokenFields)) :
    (∀ c, nonLockedOCIConfig K (runRequests K reqs []) = .ok (some c) →
        TrimSpace c.HomeTenancyId ≠ "") ∧
      (∀ e ∈ runRequests K reqs [], e.Key ≠ "config" →
        ∃ (name : String) (r : OCIRoleEntry K.TokenParams),
          e.Key = "role/" ++ name ∧ name ≠ "" ∧ K.decodeRole e.Value = .ok r ∧
            r.Role = name ∧ r.OcidList.length ≤ MaxOCIDsPerRole) ∧
      (∀ (roleName : String) (r : OCIRoleEntry K.TokenParams),
        nonLockedOCIRole K (runRequests K reqs []) roleName = .ok (some r) →
        r.Role = roleName ∧ r.OcidList.length ≤ MaxOCIDsPerRole) := by
  have hinv : StoreInvariant K (runRequests K reqs []) :=
    StoreInvariant_runRequests K hC hR reqs [] (fun e he => absurd he (List.not_mem_nil e))
  refine ⟨fun c h => StoreInvariant_config K _ c hinv h, ?_,
    fun roleName r h => StoreInvariant_role K _ roleName r hinv h⟩
  intro e he hk
  rcases hinv e he with ⟨hk1, _⟩ | h
  · exact absurd hk1 hk
  · exact h

theorem store_invariant_reachable_witness :
    ConfigJSONRoundTrip refSdk ∧ RoleJSONRoundTrip refSdk ∧
      nonLockedOCIConfig refSdk (runRequests refSdk adminScenario []) =
        .ok (some ⟨"ocid1.tenancy.oc2..dummy"⟩) ∧
      TrimSpace "ocid1.tenancy.oc2..dummy" ≠ "" ∧
      nonLockedOCIRole refSdk (runRequests refSdk adminScenario []) "devrole" =
        .ok (some ⟨⟨["policy3"], 1500⟩, "devrole", ["g1", "g2"]⟩) ∧
      (["g1", "g2"] : List String).length ≤ MaxOCIDsPerRole :=
  ⟨refSdk_ConfigJSONRoundTrip, refSdk_RoleJSONRoundTrip, rfl,
    (store_invariant_reachable refSdk refSdk_ConfigJSONRoundTrip refSdk_RoleJSONRoundTrip
      adminScenario).1 ⟨"ocid1.tenancy.oc2..dummy"⟩ rfl,
    rfl,
    ((store_invariant_reachable refSdk refSdk_ConfigJSONRoundTrip refSdk_RoleJSONRoundTrip
      adminScenario).2.2 "devrole" ⟨⟨["policy3"], 1500⟩, "devrole", ["g1", "g2"]⟩ rfl).2⟩

/-! ## The locking discipline -/

/-- C14, the failing input: pathRoleDelete of "devrole" deletes from the storage
without holding roleMutex, and pathRoleList lists the storage without holding
it, while pathConfigDelete and lockedOCIRole access the storage under their
mutex. -/
theorem pathRoleDelete_without_lock :
    pathRoleDelete_calls "devrole" = [.Delete "role/devrole"] ∧
      lockDiscipline .nothing (pathRoleDelete_calls "devrole") = false ∧
      lockDiscipline .nothing pathRoleList_calls = false ∧
      lockDiscipline .nothing pathConfigDelete_calls = true ∧
      lockDiscipline .nothing (lockedOCIRole_calls "devrole") = true := by
  refine ⟨by decide, by decide, by decide, by decide, by decide⟩

/-! ## The authentication client -/

theorem refOci_NoRetrySingleAttempt : NoRetrySingleAttempt refOci :=
  fun _ _ _ _ => ⟨(), rfl⟩

theorem AuthenticateClient_outbound_token (O : OciSdk)
    (request : AuthenticateClientRequest O.RetryPolicy O.AuthDetails) (w : O.World) :
    (∀ t, request.OpcRetryToken = some t → t ≠ "" →
        AuthenticateClient.outbound O request w =
          ((request.RetryPolicy.getD O.NoRetryPolicy, request), w)) ∧
      ((request.OpcRetryToken = none ∨ request.OpcRetryToken = some "") →
        AuthenticateClient.outbound O request w =
          ((request.RetryPolicy.getD O.NoRetryPolicy,
            { request with OpcRetryToken := some (O.RetryToken w).1 }), (O.RetryToken w).2)) := by
  constructor
  · intro t ht hne
    cases hp : request.RetryPolicy <;> simp [AuthenticateClient.outbound, ht, hne, hp]
  · intro h
    rcases h with h | h <;>
      cases hp : request.RetryPolicy <;> simp [AuthenticateClient.outbound, h, hp]

theorem FilterGroupMembership_outbound_token (O : OciSdk)
    (request : FilterGroupMembershipRequest O.RetryPolicy O.FilterDetails) (w : O.World) :
    (∀ t, request.OpcRetryToken = some t → t ≠ "" →
        FilterGroupMembership.outbound O request w =
          ((request.RetryPolicy.getD O.NoRetryPolicy, request), w)) ∧
      ((request.OpcRetryToken = none ∨ request.OpcRetryToken = some "") →
        FilterGroupMembership.outbound O request w =
          ((request.RetryPolicy.getD O.NoRetryPolicy,
            { request with OpcRetryToken := some (O.RetryToken w).1 }), (O.RetryToken w).2)) := by
  constructor
  · intro t ht hne
    cases hp : request.RetryPolicy <;> simp [FilterGroupMembership.outbound, ht, hne, hp]
  · intro h
    rcases h with h | h <;>
      cases hp : request.RetryPolicy <;> simp [FilterGroupMembership.outbound, h, hp]

theorem AuthenticateClient_eq (O : OciSdk)
    (request : AuthenticateClientRequest O.RetryPolicy O.AuthDetails) (w : O.World) :
    AuthenticateClient O request w =
      (AuthenticateClient.convert O
          (O.Retry _ (AuthenticateClient.outbound O request w).1.2 (authenticateClient O)
            (AuthenticateClient.outbound O request w).1.1
            (AuthenticateClient.outbound O request w).2).1,
        (O.Retry _ (AuthenticateClient.outbound O request w).1.2 (authenticateClient O)
            (AuthenticateClient.outbound O request w).1.1
            (AuthenticateClient.outbound O request w).2).2) := rfl

theorem FilterGroupMembership_eq (O : OciSdk)
    (request : FilterGroupMembershipRequest O.RetryPolicy O.FilterDetails) (w : O.World) :
    FilterGroupMembership O request w =
      (FilterGroupMembership.convert O
          (O.Retry _ (FilterGroupMembership.outbound O request w).1.2 (filterGroupMembership O)
            (FilterGroupMembership.outbound O request w).1.1
            (FilterGroupMembership.outbound O request w).2).1,
        (O.Retry _ (FilterGroupMembership.outbound O request w).1.2 (filterGroupMembership O)
            (FilterGroupMembership.outbound O request w).1.1
            (FilterGroupMembership.outbound O request w).2).2) := rfl

theorem AuthenticateClient_convert_err (O : OciSdk) (out : O.Outcome) (err : String)
    (h : out.2 = some err) : (AuthenticateClient.convert O out).2 = some err := by
  obtain ⟨r, e⟩ := out
  simp only at h
  subst h
  cases r with
  | none => rfl
  | some v => cases v <;> rfl

theorem FilterGroupMembership_convert_err (O : OciSdk) (out : O.Outcome) (err : String)
    (h : out.2 = some err) : (FilterGroupMembership.convert O out).2 = some err := by
  obtain ⟨r, e⟩ := out
  simp only at h
  subst h
  cases r with
  | none => rfl
  | some v => cases v <;> rfl

theorem outbound_token_cases (o : Option String) :
    (∃ t, o = some t ∧ t ≠ "") ∨ (o = none ∨ o = some "") := by
  cases o with
  | none => exact Or.inr (Or.inl rfl)
  | some t =>
    by_cases h : t = ""
    · exact Or.inr (Or.inr (by rw [h]))
    · exact Or.inl ⟨t, rfl, h⟩

/-- C12: the request AuthenticateClient (and likewise FilterGroupMembership)
hands to common.Retry, and through it to the HTTP call, is the caller's request
when it carries a non-nil, non-empty OpcRetryToken, and otherwise the caller's
request with a token freshly taken from common.RetryToken(); in all cases its
OpcRetryToken is not nil. -/
theorem outbound_request_retry_token (O : OciSdk) :
    (∀ (request : AuthenticateClientRequest O.RetryPolicy O.AuthDetails) (w : O.World),
        AuthenticateClient O request w =
          (AuthenticateClient.convert O
              (O.Retry _ (AuthenticateClient.outbound O request w).1.2 (authenticateClient O)
                (AuthenticateClient.outbound O request w).1.1
                (AuthenticateClient.outbound O request w).2).1,
            (O.Retry _ (AuthenticateClient.outbound O request w).1.2 (authenticateClient O)
                (AuthenticateClient.outbound O request w).1.1
                (AuthenticateClient.outbound O request w).2).2) ∧
        (∀ t, request.OpcRetryToken = some t → t ≠ "" →
          (AuthenticateClient.outbound O request w).1.2 = request) ∧
        ((request.OpcRetryToken = none ∨ request.OpcRetryToken = some "") →
          (AuthenticateClient.outbound O request w).1.2 =
            { request with OpcRetryToken := some (O.RetryToken w).1 }) ∧
        (AuthenticateClient.outbound O request w).1.2.OpcRetryToken ≠ none) ∧
      (∀ (request : FilterGroupMembershipRequest O.RetryPolicy O.FilterDetails) (w : O.World),
        FilterGroupMembership O request w =
          (FilterGroupMembership.convert O
              (O.Retry _ (FilterGroupMembership.outbound O request w).1.2
                (filterGroupMembership O)
                (FilterGroupMembership.outbound O request w).1.1
                (FilterGroupMembership.outbound O request w).2).1,
            (O.Retry _ (FilterGroupMembership.outbound O request w).1.2
                (filterGroupMembership O)
                (FilterGroupMembership.outbound O request w).1.1
                (FilterGroupMembership.outbound O request w).2).2) ∧
        (∀ t, request.OpcRetryToken = some t → t ≠ "" →
          (FilterGroupMembership.outbound O request w).1.2 = request) ∧
        ((request.OpcRetryToken = none ∨ request.OpcRetryToken = some "") →
          (FilterGroupMembership.outbound O request w).1.2 =
            { request with OpcRetryToken := some (O.RetryToken w).1 }) ∧
        (FilterGroupMembership.outbound O request w).1.2.OpcRetryToken ≠ none) := by
  constructor
  · intro request w
    have h := AuthenticateClient_outbound_token O request w
    refine ⟨AuthenticateClient_eq O request w, ?_, ?_, ?_⟩
    · intro t ht hne
      rw [h.1 t ht hne]
    · intro hn
      rw [h.2 hn]
    · rcases outbound_token_cases request.OpcRetryToken with ⟨t, ht, hne⟩ | hn
      · rw [h.1 t ht hne, ht]
        simp
      · rw [h.2 hn]
        simp
  · intro request w
    have h := FilterGroupMembership_outbound_token O request w
    refine ⟨FilterGroupMembership_eq O request w, ?_, ?_, ?_⟩
    · intro t ht hne
      rw [h.1 t ht hne]
    · intro hn
      rw [h.2 hn]
    · rcases outbound_token_cases request.OpcRetryToken with ⟨t, ht, hne⟩ | hn
      · rw [h.1 t ht hne, ht]
        simp
      · rw [h.2 hn]
        simp

theorem outbound_request_retry_token_witness :
    "caller-token" ≠ "" ∧
      (AuthenticateClient.outbound refOci ⟨some "caller-token", none, "signed request"⟩
          ⟨[(some 200, none)], [], ["fresh-token"]⟩).1.2 =
        ⟨some "caller-token", none, "signed request"⟩ ∧
      (AuthenticateClient refOci ⟨some "caller-token", none, "signed request"⟩
          ⟨[(some 200, none)], [], ["fresh-token"]⟩).2.sent =
        [⟨"POST", "/authentication/authenticateClient", some "caller-token"⟩] ∧
      (FilterGroupMembership.outbound refOci ⟨some "", none, ["g1", "g2"]⟩
          ⟨[(some 200, none)], [], ["fresh-token"]⟩).1.2 =
        ⟨some "fresh-token", none, ["g1", "g2"]⟩ ∧
      (FilterGroupMembership refOci ⟨some "", none, ["g1", "g2"]⟩
          ⟨[(some 200, none)], [], ["fresh-token"]⟩).2.sent =
        [⟨"POST", "/filterGroupMembership", some "fresh-token"⟩] :=
  ⟨by decide,
    ((outbound_request_retry_token refOci).1 ⟨some "caller-token", none, "signed request"⟩
      ⟨[(some 200, none)], [], ["fresh-token"]⟩).2.1 "caller-token" rfl (by decide),
    by decide,
    ((outbound_request_retry_token refOci).2 ⟨some "", none, ["g1", "g2"]⟩
      ⟨[(some 200, none)], [], ["fresh-token"]⟩).2.2.1 (Or.inr rfl),
    by decide⟩

theorem AuthenticateClient_outbound_policy (O : OciSdk)
    (request : AuthenticateClientRequest O.RetryPolicy O.AuthDetails) (w : O.World) :
    (AuthenticateClient.outbound O request w).1.1 = request.RetryPolicy.getD O.NoRetryPolicy := by
  rcases outbound_token_cases request.OpcRetryToken with ⟨t, ht, hne⟩ | hn
  · rw [(AuthenticateClient_outbound_token O request w).1 t ht hne]
  · rw [(AuthenticateClient_outbound_token O request w).2 hn]

theorem FilterGroupMembership_outbound_policy (O : OciSdk)
    (request : FilterGroupMembershipRequest O.RetryPolicy O.FilterDetails) (w : O.World) :
    (FilterGroupMembership.outbound O request w).1.1 =
      request.RetryPolicy.getD O.NoRetryPolicy := by
  rcases outbound_token_cases request.OpcRetryToken with ⟨t, ht, hne⟩ | hn
  · rw [(FilterGroupMembership_outbound_token O request w).1 t ht hne]
  · rw [(FilterGroupMembership_outbound_token O request w).2 hn]

/-- C15, the failing input: a request that carries its own retry policy (two
attempts, retry on failure) is executed under that policy: the first HTTP call
fails, the client sends the request a second time and returns no error. -/
theorem AuthenticateClient_retries_with_request_policy :
    (AuthenticateClient.outbound refOci ⟨some "caller-token", some ⟨2, true⟩, "signed request"⟩
        ⟨[(none, some "503 service unavailable"), (some 200, none)], [], []⟩).1.1 =
        (⟨2, true⟩ : RefRetryPolicy) ∧
      (⟨2, true⟩ : RefRetryPolicy) ≠ refOci.NoRetryPolicy ∧
      (AuthenticateClient refOci ⟨some "caller-token", some ⟨2, true⟩, "signed request"⟩
        ⟨[(none, some "503 service unavailable"), (some 200, none)], [], []⟩).1.2 = none ∧
      (AuthenticateClient refOci ⟨some "caller-token", some ⟨2, true⟩, "signed request"⟩
        ⟨[(none, some "503 service unavailable"), (some 200, none)], [], []⟩).2.sent =
        [⟨"POST", "/authentication/authenticateClient", some "caller-token"⟩,
          ⟨"POST", "/authentication/authenticateClient", some "caller-token"⟩] := by
  refine ⟨by decide, by decide, by decide, by decide⟩

/-- C15, amended: for a request that carries no retry policy of its own,
AuthenticateClient and FilterGroupMembership hand common.NoRetryPolicy() to
common.Retry; when common.Retry under that policy runs the operation once, the
client's result is the converted result of one HTTP call and an error of that
call is returned to the caller. A request that carries a retry policy is
executed under that policy. -/
theorem client_retry_policy (O : OciSdk) :
    (∀ (request : AuthenticateClientRequest O.RetryPolicy O.AuthDetails) (w : O.World),
        (request.RetryPolicy = none →
          (AuthenticateClient.outbound O request w).1.1 = O.NoRetryPolicy ∧
          (NoRetrySingleAttempt O → ∃ extras,
            AuthenticateClient O request w =
              (AuthenticateClient.convert O
                  (authenticateClient O (AuthenticateClient.outbound O request w).1.2 extras
                    (AuthenticateClient.outbound O request w).2).1,
                (authenticateClient O (AuthenticateClient.outbound O request w).1.2 extras
                    (AuthenticateClient.outbound O request w).2).2) ∧
            ∀ err,
              (authenticateClient O (AuthenticateClient.outbound O request w).1.2 extras
                (AuthenticateClient.outbound O request w).2).1.2 = some err →
              (AuthenticateClient O request w).1.2 = some err)) ∧
        (∀ p, request.RetryPolicy = some p →
          (AuthenticateClient.outbound O request w).1.1 = p)) ∧
      (∀ (request : FilterGroupMembershipRequest O.RetryPolicy O.FilterDetails) (w : O.World),
        (request.RetryPolicy = none →
          (FilterGroupMembership.outbound O request w).1.1 = O.NoRetryPolicy ∧
          (NoRetrySingleAttempt O → ∃ extras,
            FilterGroupMembership O request w =
              (FilterGroupMembership.convert O
                  (filterGroupMembership O (FilterGroupMembership.outbound O request w).1.2
                    extras (FilterGroupMembership.outbound O request w).2).1,
                (filterGroupMembership O (FilterGroupMembership.outbound O request w).1.2
                    extras (FilterGroupMembership.outbound O request w).2).2) ∧
            ∀ err,
              (filterGroupMembership O (FilterGroupMembership.outbound O request w).1.2 extras
                (FilterGroupMembership.outbound O request w).2).1.2 = some err →
              (FilterGroupMembership O request w).1.2 = some err)) ∧
        (∀ p, request.RetryPolicy = some p →
          (FilterGroupMembership.outbound O request w).1.1 = p)) := by
  constructor
  · intro request w
    have hp := AuthenticateClient_outbound_policy O request w
    constructor
    · intro hnone
      have hpol : (AuthenticateClient.outbound O request w).1.1 = O.NoRetryPolicy := by
        rw [hp, hnone]
        rfl
      refine ⟨hpol, ?_⟩
      intro hS
      obtain ⟨extras, hx⟩ := hS _ (AuthenticateClient.outbound O request w).1.2
        (authenticateClient O) (AuthenticateClient.outbound O request w).2
      have heq : AuthenticateClient O request w =
          (AuthenticateClient.convert O
              (authenticateClient O (AuthenticateClient.outbound O request w).1.2 extras
                (AuthenticateClient.outbound O request w).2).1,
            (authenticateClient O (AuthenticateClient.outbound O request w).1.2 extras
                (AuthenticateClient.outbound O request w).2).2) := by
        rw [AuthenticateClient_eq, hpol, hx]
      refine ⟨extras, heq, ?_⟩
      intro err herr
      rw [heq]
      exact AuthenticateClient_convert_err O _ err herr
    · intro p hsome
      rw [hp, hsome]
      rfl
  · intro request w
    have hp := FilterGroupMembership_outbound_policy O request w
    constructor
    · intro hnone
      have hpol : (FilterGroupMembership.outbound O request w).1.1 = O.NoRetryPolicy := by
        rw [hp, hnone]
        rfl
      refine ⟨hpol, ?_⟩
      intro hS
      obtain ⟨extras, hx⟩ := hS _ (FilterGroupMembership.outbound O request w).1.2
        (filterGroupMembership O) (FilterGroupMembership.outbound O request w).2
      have heq : FilterGroupMembership O request w =
          (FilterGroupMembership.convert O
              (filterGroupMembership O (FilterGroupMembership.outbound O request w).1.2 extras
                (FilterGroupMembership.outbound O request w).2).1,
            (filterGroupMembership O (FilterGroupMembership.outbound O request w).1.2 extras
                (FilterGroupMembership.outbound O request w).2).2) := by
        rw [FilterGroupMembership_eq, hpol, hx]
      refine ⟨extras, heq, ?_⟩
      intro err herr
      rw [heq]
      exact FilterGroupMembership_convert_err O _ err herr
    · intro p hsome
      rw [hp, hsome]
      rfl

theorem client_retry_policy_witness :
    NoRetrySingleAttempt refOci ∧
      (AuthenticateClient.outbound refOci ⟨some "caller-token", none, "signed request"⟩
        ⟨[(none, some "503 service unavailable"), (some 200, none)], [], []⟩).1.1 =
        refOci.NoRetryPolicy ∧
      (AuthenticateClient refOci ⟨some "caller-token", none, "signed request"⟩
        ⟨[(none, some "503 service unavailable"), (some 200, none)], [], []⟩).1.2 =
        some "503 service unavailable" ∧
      (AuthenticateClient refOci ⟨some "caller-token", none, "signed request"⟩
        ⟨[(none, some "503 service unavailable"), (some 200, none)], [], []⟩).2.sent.length = 1 ∧
      (FilterGroupMembership.outbound refOci ⟨none, some ⟨3, true⟩, ["g1"]⟩
        ⟨[], [], []⟩).1.1 = (⟨3, true⟩ : RefRetryPolicy) :=
  ⟨refOci_NoRetrySingleAttempt,
    (((client_retry_policy refOci).1 ⟨some "caller-token", none, "signed request"⟩
      ⟨[(none, some "503 service unavailable"), (some 200, none)], [], []⟩).1 rfl).1,
    Exists.elim
      ((((client_retry_policy refOci).1 ⟨some "caller-token", none, "signed request"⟩
        ⟨[(none, some "503 service unavailable"), (some 200, none)], [], []⟩).1 rfl).2
        refOci_NoRetrySingleAttempt)
      (fun _ h => h.2 "503 service unavailable" rfl),
    by decide,
    ((client_retry_policy refOci).2 ⟨none, some ⟨3, true⟩, ["g1"]⟩ ⟨[], [], []⟩).2
      ⟨3, true⟩ rfl⟩

/-! ## The login decision -/

/-- C13: for a stored role whose OCID list is empty, with every service, auth
type, bundle and token, the login procedure returns no grant, makes no
filter-membership call, and, when the config is present and the service
resolves a principal, returns the denial Unauthorized. -/
theorem login_empty_allow_list_denied {Bundle : Type} (K : Sdk) (svc : IdentityService Bundle)
    (s : Storage K.Bytes) (roleName authType : String) (bundle : Bundle)
    (idempotencyToken : String) (role : OCIRoleEntry K.TokenParams)
    (hr : lockedOCIRole K s roleName = .ok (some role)) (he : role.OcidList = []) :
    (∀ tokenParams identity,
        (LoginAuthorizer.login K svc s roleName authType bundle idempotencyToken).outcome ≠
          .Grant tokenParams identity) ∧
      (∀ c ∈ (LoginAuthorizer.login K svc s roleName authType bundle idempotencyToken).calls,
        c = .authenticate) ∧
      (∀ config principal, lockedOCIConfig K s = .ok (some config) →
        svc.authenticate bundle config.HomeTenancyId idempotencyToken = .ok principal →
        (LoginAuthorizer.login K svc s roleName authType bundle idempotencyToken).outcome =
          .Denial .Unauthorized) := by
  have hemp : role.OcidList.isEmpty = true := by rw [he]; rfl
  refine ⟨?_, ?_, ?_⟩
  · intro tokenParams identity
    unfold LoginAuthorizer.login
    cases hc : lockedOCIConfig K s with
    | error err => simp
    | ok o =>
      cases o with
      | none => simp
      | some config =>
        simp only [hr]
        cases ha : svc.authenticate bundle config.HomeTenancyId idempotencyToken <;>
          simp [hemp]
  · intro c hc1
    unfold LoginAuthorizer.login at hc1
    cases hc : lockedOCIConfig K s with
    | error err => simp [hc] at hc1
    | ok o =>
      cases o with
      | none => simp [hc] at hc1
      | some config =>
        simp only [hc, hr] at hc1
        cases ha : svc.authenticate bundle config.HomeTenancyId idempotencyToken <;>
          simp [ha, hemp] at hc1 <;> exact hc1
  · intro config principal hc ha
    simp [LoginAuthorizer.login, hc, hr, ha, hemp]

theorem login_empty_allow_list_denied_witness :
    lockedOCIRole refSdk loginStore "opsrole" = .ok (some ⟨⟨["policy3"], 1000⟩, "opsrole", []⟩) ∧
      LoginAuthorizer.login refSdk permissiveService loginStore "opsrole" "apikey"
          "ocid1.user.oc1..someone" "token" =
        ⟨.Denial .Unauthorized, [.authenticate]⟩ ∧
      LoginAuthorizer.login refSdk permissiveService loginStore "devrole" "apikey"
          "ocid1.user.oc1..someone" "token" =
        ⟨.Grant ⟨["policy1", "policy2"], 1500⟩ "ocid1.user.oc1..someone",
          [.authenticate, .filterGroupMembership ["g1", "g2"]]⟩ ∧
      (LoginAuthorizer.login refSdk permissiveService loginStore "opsrole" "ip"
          "ocid1.instance.oc1..host" "token").outcome = .Denial .Unauthorized :=
  ⟨rfl, by decide, by decide,
    (login_empty_allow_list_denied refSdk permissiveService loginStore "opsrole" "ip"
      "ocid1.instance.oc1..host" "token" ⟨⟨["policy3"], 1000⟩, "opsrole", []⟩ rfl rfl).2.2
      ⟨"ocid1.tenancy.oc1..dummy"⟩ ⟨"ocid1.instance.oc1..host"⟩ rfl rfl⟩

end Ociauth
